import Mathlib

/-!
Verification development for the finda market-data library.

The definitions below are a shallow embedding of the Python sources:
`src/finda/utils.py` (timeframe and date-token parsing),
`src/finda/exceptions.py` (the error taxonomy),
`src/finda/ohlcv_fetcher.py` and `src/finda/tick_fetcher.py`
(the three provider adapters and the two fallback orchestrators).

Modelling conventions:
* Python floats carried through untouched (prices, sizes) are `Int`;
  no arithmetic is ever performed on them in the embedded code.
* Instants (datetime values, dataframe indexes, millisecond epochs) are
  `Nat`; the adapters only compare and order them.
* Network calls are fields of an environment record: each upstream call
  either raises (a message) or returns the modelled response.
* Exceptions become `Except FindaErr`; `str(e)` is `errMsg`.
-/

namespace Finda

deriving instance DecidableEq for Except

/-- The exception classes of `exceptions.py` plus the built-in Python
exceptions the code can raise or meet: `ValueError` (format errors in
`utils.py`), `TypeError` (too many `datetime` constructor arguments),
`ImportError` (a missing optional dependency), and `pyError` for any other
exception coming out of an upstream library call. `InvalidTimeframeError`
is declared in `exceptions.py` but never raised anywhere in the source. -/
inductive FindaErr where
  | valueError (msg : String)
  | typeError (msg : String)
  | importError (msg : String)
  | pyError (msg : String)
  | dataProviderError (msg : String)
  | invalidTimeframeError (msg : String)
deriving DecidableEq, Repr

/-- `str(e)`: the message an exception carries. -/
def errMsg : FindaErr → String
  | .valueError m => m
  | .typeError m => m
  | .importError m => m
  | .pyError m => m
  | .dataProviderError m => m
  | .invalidTimeframeError m => m

/-- `except Exception as e: raise DataProviderError(str(e))` — the blanket
handler every adapter wraps its body in. -/
def wrapDP {α : Type} : Except FindaErr α → Except FindaErr α
  | .ok a => .ok a
  | .error e => .error (.dataProviderError (errMsg e))

/-- Python `str.strip()` (the tokens in scope carry only ASCII blanks). -/
def pyStrip (cs : List Char) : List Char :=
  ((cs.dropWhile Char.isWhitespace).reverse.dropWhile Char.isWhitespace).reverse

/-- Python `str.split(sep)` for a one-character separator: `"".split` gives
`[""]`, and empty pieces between adjacent separators are kept. -/
def splitChar (sep : Char) : List Char → List (List Char)
  | [] => [[]]
  | c :: rest =>
    let r := splitChar sep rest
    if c = sep then [] :: r
    else
      match r with
      | h :: t => (c :: h) :: t
      | [] => [[c]]

/-- Python `int(p)` on one hyphen-separated token part: a nonempty ASCII
digit string (the parts in scope carry no signs or padding blanks). -/
def charsToNat : List Char → Option Nat
  | [] => none
  | cs =>
    if cs.all Char.isDigit then
      some (cs.foldl (fun acc c => acc * 10 + (c.toNat - 48)) 0)
    else none

/-- The character class `[a-zA-Z]` of the `parse_tf` regexes. -/
def isAsciiLetter (c : Char) : Bool :=
  ('a' ≤ c ∧ c ≤ 'z') ∨ ('A' ≤ c ∧ c ≤ 'Z')

/-- The character class `\d` of the `parse_tf` regexes (ASCII digits; the
tokens in scope contain no other Unicode digits). -/
def isAsciiDigit (c : Char) : Bool :=
  '0' ≤ c ∧ c ≤ '9'

/-- The two anchored greedy matches of `parse_tf` on the normalized token:
`re.match(r"([a-zA-Z]+)(\d+)", s)` then `re.match(r"(\d+)([a-zA-Z]+)", s)`.
Because the two character classes are disjoint, each greedy anchored match
is a `takeWhile` split at the front of the string; everything after the
match is ignored, exactly as `re.match` ignores it. -/
def parseCore (cs : List Char) : Option (String × String) :=
  let l1 := cs.takeWhile isAsciiLetter
  let d1 := (cs.dropWhile isAsciiLetter).takeWhile isAsciiDigit
  if l1 ≠ [] ∧ d1 ≠ [] then some (⟨l1⟩, ⟨d1⟩)
  else
    let d2 := cs.takeWhile isAsciiDigit
    let l2 := (cs.dropWhile isAsciiDigit).takeWhile isAsciiLetter
    if d2 ≠ [] ∧ l2 ≠ [] then some (⟨l2⟩, ⟨d2⟩)
    else none

/-- `parse_tf` of `utils.py`: normalize with `tf.strip().lower()`, then try
unit-then-count (`min1`) and count-then-unit (`1min`); the Python returns
`(None, None)` on no match, embedded as `none`. -/
def parse_tf (tf : String) : Option (String × String) :=
  parseCore ((pyStrip tf.data).map Char.toLower)

/-- The Dukascopy unit table of `user_to_dukascopy_tf`, in the source's
insertion order (Python dicts iterate in insertion order). -/
def dukascopyUnits : List (String × String) :=
  [("min", "MIN"), ("m", "MIN"),
   ("hour", "HOUR"), ("h", "HOUR"),
   ("day", "DAY"), ("d", "DAY"),
   ("week", "WEEK"), ("w", "WEEK"),
   ("month", "MONTH"), ("mo", "MONTH"),
   ("year", "YEAR"), ("y", "YEAR"),
   ("sec", "SEC"), ("s", "SEC")]

/-- The Binance unit table of `user_to_binance_tf`, in insertion order. -/
def binanceUnits : List (String × String) :=
  [("min", "m"), ("m", "m"),
   ("hour", "h"), ("h", "h"),
   ("day", "d"), ("d", "d"),
   ("week", "w"), ("w", "w"),
   ("month", "M"), ("mo", "M"),
   ("sec", "s"), ("s", "s")]

/-- The Alpaca unit table of `user_to_alpaca_tf`, in insertion order. -/
def alpacaUnits : List (String × String) :=
  [("min", "Min"), ("m", "Min"),
   ("hour", "Hour"), ("h", "Hour"),
   ("day", "Day"), ("d", "Day"),
   ("week", "Week"), ("w", "Week")]

/-- The loop `for k, v in units.items(): if unit.startswith(k): return v`:
the first table key that is a *prefix of* the parsed unit wins. -/
def unitLookup (units : List (String × String)) (unit : String) : Option String :=
  (units.find? (fun kv => kv.1.data.isPrefixOf unit.data)).map (fun kv => kv.2)

/-- `user_to_dukascopy_tf` of `utils.py`. -/
def user_to_dukascopy_tf (tf : String) : Except FindaErr String :=
  match parse_tf tf with
  | some (unit, num) =>
    match unitLookup dukascopyUnits unit with
    | some v => .ok (num ++ v)
    | none => .error (.valueError ("Unrecognized Dukascopy timeframe: '" ++ tf ++ "'"))
  | none => .error (.valueError ("Unrecognized Dukascopy timeframe: '" ++ tf ++ "'"))

/-- `user_to_binance_tf` of `utils.py`. -/
def user_to_binance_tf (tf : String) : Except FindaErr String :=
  match parse_tf tf with
  | some (unit, num) =>
    match unitLookup binanceUnits unit with
    | some v => .ok (num ++ v)
    | none => .error (.valueError ("Unrecognized Binance timeframe: '" ++ tf ++ "'"))
  | none => .error (.valueError ("Unrecognized Binance timeframe: '" ++ tf ++ "'"))

/-- `user_to_alpaca_tf` of `utils.py`. -/
def user_to_alpaca_tf (tf : String) : Except FindaErr String :=
  match parse_tf tf with
  | some (unit, num) =>
    match unitLookup alpacaUnits unit with
    | some v => .ok (num ++ v)
    | none => .error (.valueError ("Unrecognized Alpaca timeframe: '" ++ tf ++ "'"))
  | none => .error (.valueError ("Unrecognized Alpaca timeframe: '" ++ tf ++ "'"))

/-- The fields a Python `datetime` holds. -/
structure PyDateTime where
  year : Nat
  month : Nat
  day : Nat
  hour : Nat
  minute : Nat
  second : Nat
  micro : Nat := 0
deriving DecidableEq, Repr

def isLeapYear (y : Nat) : Bool :=
  (y % 4 = 0 ∧ y % 100 ≠ 0) ∨ y % 400 = 0

def daysInMonth (y m : Nat) : Nat :=
  if m = 2 then (if isLeapYear y then 29 else 28)
  else if m = 4 ∨ m = 6 ∨ m = 9 ∨ m = 11 then 30
  else 31

/-- The range checks of the `datetime(...)` constructor (`ValueError` when
violated). -/
def validDateTime (p : PyDateTime) : Bool :=
  1 ≤ p.year ∧ p.year ≤ 9999 ∧ 1 ≤ p.month ∧ p.month ≤ 12 ∧
  1 ≤ p.day ∧ p.day ≤ daysInMonth p.year p.month ∧
  p.hour < 24 ∧ p.minute < 60 ∧ p.second < 60 ∧ p.micro < 1000000

/-- `datetime(*parts)` for 1-7 positional integer arguments (the seventh is
the microsecond); `none` on a range violation (`ValueError`). -/
def mkDateTime (parts : List Nat) : Option PyDateTime :=
  match parts with
  | [y, mo, d, h, mi, s] =>
    let p : PyDateTime := ⟨y, mo, d, h, mi, s, 0⟩
    if validDateTime p then some p else none
  | [y, mo, d, h, mi, s, us] =>
    let p : PyDateTime := ⟨y, mo, d, h, mi, s, us⟩
    if validDateTime p then some p else none
  | _ => none

/-- `[int(p) for p in parts]`: all parts must parse, else `ValueError`. -/
def allInts (parts : List (List Char)) : Option (List Nat) :=
  parts.mapM charsToNat

/-- `while len(parts) < 6: parts.append(0)`. -/
def padToSix (parts : List Nat) : List Nat :=
  parts ++ List.replicate (6 - parts.length) 0

/-- Modelled from the Python stdlib `datetime.fromisoformat`, restricted to
the shapes the code can meet: `YYYY-MM-DD`, optionally followed by `T` or a
blank and `HH:MM:SS`. No claim exercises other ISO shapes. -/
def fromIso (s : String) : Option PyDateTime :=
  let cs := s.data
  let parts := if cs.contains 'T' then splitChar 'T' cs else splitChar ' ' cs
  match parts with
  | [d] =>
    match allInts (splitChar '-' d) with
    | some [y, mo, dd] => mkDateTime [y, mo, dd, 0, 0, 0]
    | _ => none
  | [d, t] =>
    match allInts (splitChar '-' d), allInts (splitChar ':' t) with
    | some [y, mo, dd], some [h, mi, se] => mkDateTime [y, mo, dd, h, mi, se]
    | _, _ => none
  | _ => none

/-- `user_to_dt` of `utils.py`: the primary `YYYY-MM-DD-HH-MM-SS` grammar
padded with zeros, the `fromisoformat` fallback on any `ValueError`, and the
final `ValueError` when both fail. The `as_type` flag only chooses between
the datetime and its ISO rendering of the same instant, so the embedding
returns the parsed instant for both. More than seven parts raise a
`TypeError` from the constructor call, which the `except ValueError` does
not catch. -/
def user_to_dt (s : String) : Except FindaErr PyDateTime :=
  let fallback : Except FindaErr PyDateTime :=
    match fromIso s with
    | some dt => .ok dt
    | none => .error (.valueError ("Invalid date format: " ++ s ++ ". Expected YYYY-MM-DD-HH-MM-SS"))
  match allInts (splitChar '-' s.data) with
  | some parts =>
    let parts := padToSix parts
    if parts.length > 7 then
      .error (.typeError "datetime() takes at most 8 arguments")
    else
      match mkDateTime parts with
      | some dt => .ok dt
      | none => fallback
  | none => fallback

/-- Modelled from `int(datetime.fromisoformat(...).timestamp() * 1000)`:
a stand-in epoch formula. The adapters only thread these values into the
pagination cursor and compare them; no claim depends on the exact POSIX
epoch arithmetic. -/
def toMillis (p : PyDateTime) : Nat :=
  ((((p.year * 400 + p.month * 32 + p.day) * 24 + p.hour) * 60 + p.minute) * 60 + p.second) * 1000

/-- `symbol.strip().upper()`, the normalization every adapter applies. -/
def normSymbol (s : String) : String :=
  ⟨(pyStrip s.data).map Char.toUpper⟩

/-- `symbol.replace("/", "")` for the one-character pattern: every slash is
removed. -/
def removeSlashes (s : String) : String :=
  ⟨s.data.filter (fun c => c ≠ '/')⟩

/-- The OHLCV result tuple `(opens, highs, lows, closes, volumes, times)`
every OHLCV adapter returns. -/
structure OhlcvData where
  opens : List Int
  highs : List Int
  lows : List Int
  closes : List Int
  volumes : List Int
  times : List Nat
deriving DecidableEq, Repr

/-- The tick result tuple `(bid, ask, bid_vol, ask_vol, real_vol, times)`
every tick adapter returns. -/
structure TickData where
  bid : List Int
  ask : List Int
  bidVol : List Int
  askVol : List Int
  realVol : List Int
  times : List Nat
deriving DecidableEq, Repr

/-- A Dukascopy OHLCV dataframe: the `volume` column may be absent
(`if "volume" in df`); `times` is the index. -/
structure DukaOhlcvDF where
  opens : List Int
  highs : List Int
  lows : List Int
  closes : List Int
  volume : Option (List Int)
  times : List Nat
deriving DecidableEq, Repr

/-- A Dukascopy tick dataframe: each quote column may be absent, defaulted
to zeros by the adapter. -/
structure DukaTickDF where
  bidPrice : Option (List Int)
  askPrice : Option (List Int)
  bidVolume : Option (List Int)
  askVolume : Option (List Int)
  times : List Nat
deriving DecidableEq, Repr

/-- The Dukascopy upstream: `installed` models the optional
`dukascopy_python` dependency; each fetch either raises (`.error msg`) or
returns `None` or a dataframe, exactly the outcomes the adapter checks. -/
structure DukaEnv where
  installed : Bool
  ohlcv : String → String → PyDateTime → PyDateTime → Except String (Option DukaOhlcvDF)
  ticks : String → PyDateTime → PyDateTime → Except String (Option DukaTickDF)

/-- One Binance OHLCV record `c`: `c[0]` is the millisecond timestamp,
then open, high, low, close, volume. -/
structure BinRec where
  ts : Nat
  openv : Int
  highv : Int
  lowv : Int
  closev : Int
  vol : Int
deriving DecidableEq, Repr

/-- One ccxt trade dict: timestamp, price, amount and the aggressor
side (`'buy'`, `'sell'`, or `None` when the exchange reports none). -/
structure BinTrade where
  ts : Nat
  price : Int
  amount : Int
  side : Option String
deriving DecidableEq, Repr

/-- The Binance upstream, modelled as the synthetic paginated source of the
spec: the full record sequence the exchange holds for a request; each
`fetch_ohlcv`/`fetch_trades` call serves the first `limit` records at or
after the cursor. `.error` models a raised network exception on the first
call. -/
structure BinanceEnv where
  ohlcvSrc : String → String → Except String (List BinRec)
  tradeSrc : String → Except String (List BinTrade)

/-- One page of the paginated upstream: up to `limit` records at or after
the cursor `since`. -/
def binPage (src : List BinRec) (since limit : Nat) : List BinRec :=
  (src.filter (fun r => since ≤ r.ts)).take limit

/-- One page of trades, same shape. -/
def binTradePage (src : List BinTrade) (since limit : Nat) : List BinTrade :=
  (src.filter (fun t => since ≤ t.ts)).take limit

/-- `batch[-1]`: the last record of a nonempty page. -/
def lastTsRec (page : List BinRec) : Nat :=
  (page.getLast?.map (fun r => r.ts)).getD 0

/-- `batch[-1]` for trades. -/
def lastTsTrade (page : List BinTrade) : Nat :=
  (page.getLast?.map (fun t => t.ts)).getD 0

/-- The body of the pagination loop of `fetch_binance_ohclv`:

    while since < end_ms:
        ohlcv = exchange.fetch_ohlcv(binance_symbol, tf, since, limit)
        if not ohlcv: break
        filtered = [c for c in ohlcv if c[0] <= end_ms]
        all_ohlcv.extend(filtered)
        if len(ohlcv) < limit: break
        since = ohlcv[-1][0] + 1

Structured with explicit fuel so the kernel can evaluate it; every page is
served at or after the cursor, so each iteration that continues advances
the cursor by at least one, and `end_ms - since` units of fuel replay the
whole `while` loop exactly (the zero-fuel branch is unreachable from the
wrapper below). -/
def binanceOhlcvGo (src : List BinRec) (endMs : Nat) :
    Nat → Nat → List BinRec → List BinRec
  | 0, _, acc => acc
  | fuel + 1, since, acc =>
    if since < endMs then
      let page := binPage src since 1000
      if page.isEmpty then acc
      else
        let acc' := acc ++ page.filter (fun c => c.ts ≤ endMs)
        if page.length < 1000 then acc'
        else binanceOhlcvGo src endMs fuel (lastTsRec page + 1) acc'
    else acc

/-- The pagination loop of `fetch_binance_ohclv` (see `binanceOhlcvGo`). -/
def binanceOhlcvLoop (src : List BinRec) (endMs since : Nat) (acc : List BinRec) : List BinRec :=
  binanceOhlcvGo src endMs (endMs - since) since acc

/-- The body of the pagination loop of `fetch_binance_ticks`:

    while since < end_ms:
        batch = exchange.fetch_trades(binance_symbol, since=since, limit=1000)
        if not batch: break
        for t in batch:
            if t['timestamp'] > end_ms: break
            trades.append(t)
        if len(batch) < 1000: break
        since = batch[-1]['timestamp'] + 1

The inner `for`/`break` keeps the longest prefix of the batch whose
timestamps do not pass `end_ms`. Fueled like `binanceOhlcvGo`. -/
def binanceTickGo (src : List BinTrade) (endMs : Nat) :
    Nat → Nat → List BinTrade → List BinTrade
  | 0, _, acc => acc
  | fuel + 1, since, acc =>
    if since < endMs then
      let batch := binTradePage src since 1000
      if batch.isEmpty then acc
      else
        let acc' := acc ++ batch.takeWhile (fun t => t.ts ≤ endMs)
        if batch.length < 1000 then acc'
        else binanceTickGo src endMs fuel (lastTsTrade batch + 1) acc'
    else acc

/-- The pagination loop of `fetch_binance_ticks` (see `binanceTickGo`). -/
def binanceTickLoop (src : List BinTrade) (endMs since : Nat) (acc : List BinTrade) : List BinTrade :=
  binanceTickGo src endMs (endMs - since) since acc

/-- The Alpaca bar timeframes the adapter's `tf_map` can produce
(`TimeFrame.Minute` is the one-minute bar). -/
inductive AlpacaTF where
  | minute (n : Nat)
  | hour (n : Nat)
  | day (n : Nat)
  | week (n : Nat)
deriving DecidableEq, Repr

/-- The `tf_map` dict of `fetch_alpaca_ohclv`. -/
def tf_map : List (String × AlpacaTF) :=
  [("1Min", .minute 1), ("5Min", .minute 5), ("15Min", .minute 15), ("30Min", .minute 30),
   ("1Hour", .hour 1), ("1Day", .day 1), ("1Week", .week 1)]

/-- `tf_map.get(tf_str, TimeFrame.Minute)`: a translated timeframe absent
from the table silently becomes the one-minute bar. -/
def tfMapGet (s : String) : AlpacaTF :=
  (tf_map.lookup s).getD (.minute 1)

/-- One row of an Alpaca bars dataframe. -/
structure AlpacaBarRow where
  time : Nat
  openv : Int
  highv : Int
  lowv : Int
  closev : Int
  vol : Int
deriving DecidableEq, Repr

/-- An Alpaca bars dataframe: `multi` models a `MultiIndex` keyed by
symbol; the key of each row is carried alongside it. -/
structure AlpacaBarsDF where
  multi : Bool
  rows : List (String × AlpacaBarRow)
deriving DecidableEq, Repr

/-- One row of an Alpaca trades dataframe. -/
structure AlpacaTradeRow where
  time : Nat
  price : Int
  size : Int
deriving DecidableEq, Repr

/-- An Alpaca trades dataframe; `hasPrice`/`hasSize` model the
`if 'price' in trades` / `if 'size' in trades` column checks (`fillna` is
the identity here because the modelled values are total). -/
structure AlpacaTradesDF where
  multi : Bool
  rows : List (String × AlpacaTradeRow)
  hasPrice : Bool
  hasSize : Bool
deriving DecidableEq, Repr

/-- The Alpaca upstream: `installed` models the optional `alpaca` SDK;
one request function per asset-class branch. -/
structure AlpacaEnv where
  installed : Bool
  cryptoBars : String → AlpacaTF → PyDateTime → PyDateTime → Except String AlpacaBarsDF
  stockBars : String → AlpacaTF → PyDateTime → PyDateTime → Except String AlpacaBarsDF
  cryptoTrades : String → PyDateTime → PyDateTime → Except String AlpacaTradesDF
  stockTrades : String → PyDateTime → PyDateTime → Except String AlpacaTradesDF

/-- The whole upstream world a unified fetch runs against. -/
structure Env where
  duka : DukaEnv
  binance : BinanceEnv
  alpaca : AlpacaEnv

/-- `fetch_dukascopy_ohclv` of `ohlcv_fetcher.py`. The module import stands
before the `try`, so a missing dependency raises `ImportError` directly;
everything inside the `try` is wrapped by the blanket
`except Exception as e: raise DataProviderError(str(e))`. -/
def fetch_dukascopy_ohclv (env : DukaEnv) (symbol userTf userStart userEnd : String) :
    Except FindaErr OhlcvData :=
  if env.installed = false then
    .error (.importError "No module named dukascopy_python")
  else
    let symbol := normSymbol symbol
    wrapDP (do
      let tf ← user_to_dukascopy_tf userTf
      let sdt ← user_to_dt userStart
      let edt ← user_to_dt userEnd
      match env.ohlcv symbol tf sdt edt with
      | .error m => .error (.pyError m)
      | .ok none => .error (.dataProviderError ("No Dukascopy data for " ++ symbol))
      | .ok (some df) =>
        if df.times.isEmpty then
          .error (.dataProviderError ("No Dukascopy data for " ++ symbol))
        else
          .ok { opens := df.opens, highs := df.highs, lows := df.lows, closes := df.closes,
                volumes := df.volume.getD (List.replicate df.times.length 0),
                times := df.times })

/-- The post-loop step of `fetch_binance_ohclv`:
`if not all_ohlcv: raise DataProviderError(...)` else return the aggregate. -/
def binanceOhlcvFetchCore (src : List BinRec) (endMs since : Nat) (symbol : String) :
    Except FindaErr (List BinRec) :=
  let all := binanceOhlcvLoop src endMs since []
  if all.isEmpty then .error (.dataProviderError ("No Binance data for " ++ symbol))
  else .ok all

/-- `fetch_binance_ohclv` of `ohlcv_fetcher.py`. The final
`datetime.fromtimestamp(t / 1000)` conversion is the identity on the
modelled instants. -/
def fetch_binance_ohclv (env : BinanceEnv) (symbol userTf userStart userEnd : String) :
    Except FindaErr OhlcvData :=
  let symbol := normSymbol symbol
  let bsym := removeSlashes symbol
  wrapDP (do
    let tf ← user_to_binance_tf userTf
    let sdt ← user_to_dt userStart
    let edt ← user_to_dt userEnd
    match env.ohlcvSrc bsym tf with
    | .error m => .error (.pyError m)
    | .ok src => do
      let all ← binanceOhlcvFetchCore src (toMillis edt) (toMillis sdt) symbol
      .ok { opens := all.map (fun r => r.openv), highs := all.map (fun r => r.highv),
            lows := all.map (fun r => r.lowv), closes := all.map (fun r => r.closev),
            volumes := all.map (fun r => r.vol), times := all.map (fun r => r.ts) })

/-- Insertion into a list sorted by bar time. -/
def insertBarByTime (r : AlpacaBarRow) : List AlpacaBarRow → List AlpacaBarRow
  | [] => [r]
  | x :: xs => if r.time ≤ x.time then r :: x :: xs else x :: insertBarByTime r xs

/-- `bars.sort_index()`: sort the rows by their time index. -/
def sortBarsByTime (l : List AlpacaBarRow) : List AlpacaBarRow :=
  l.foldr insertBarByTime []

/-- The response processing of `fetch_alpaca_ohclv`, in source order: the
`bars.empty` check, the `MultiIndex` projection `bars.loc[symbol]` (a
`KeyError` when the symbol keys no row), `sort_index`, column extraction. -/
def alpacaBarsProcess (symbol : String) (bars : AlpacaBarsDF) : Except FindaErr OhlcvData :=
  if bars.rows.isEmpty then
    .error (.dataProviderError ("No Alpaca data for " ++ symbol))
  else
    let projected :=
      if bars.multi then (bars.rows.filter (fun kv => kv.1 = symbol)).map (fun kv => kv.2)
      else bars.rows.map (fun kv => kv.2)
    if bars.multi ∧ projected.isEmpty then
      .error (.pyError ("KeyError: '" ++ symbol ++ "'"))
    else
      let sorted := sortBarsByTime projected
      .ok { opens := sorted.map (fun r => r.openv), highs := sorted.map (fun r => r.highv),
            lows := sorted.map (fun r => r.lowv), closes := sorted.map (fun r => r.closev),
            volumes := sorted.map (fun r => r.vol), times := sorted.map (fun r => r.time) }

/-- `fetch_alpaca_ohclv` of `ohlcv_fetcher.py`: translate the timeframe,
resolve it through `tf_map` (with its silent one-minute default), branch on
the asset class, then process the response. The credentials only
parameterize the client construction. -/
def fetch_alpaca_ohclv (env : AlpacaEnv) (symbol userTf userStart userEnd : String)
    (_apiKey _secretKey : String) : Except FindaErr OhlcvData :=
  if env.installed = false then
    .error (.importError "No module named alpaca")
  else
    let symbol := normSymbol symbol
    wrapDP (do
      let tfStr ← user_to_alpaca_tf userTf
      let tf := tfMapGet tfStr
      let sdt ← user_to_dt userStart
      let edt ← user_to_dt userEnd
      let isCrypto := symbol.data.contains '/' || symbol == "BTCUSD" || symbol == "ETHUSD"
      match (if isCrypto then env.cryptoBars symbol tf sdt edt else env.stockBars symbol tf sdt edt) with
      | .error m => .error (.pyError m)
      | .ok bars => alpacaBarsProcess symbol bars)

/-- `fetch_dukascopy_ticks` of `tick_fetcher.py`: no timeframe translation
(the `user_tf` argument is never read), quote columns defaulted to zeros
when absent, and zero trade volume throughout (quote data). -/
def fetch_dukascopy_ticks (env : DukaEnv) (symbol _userTf userStart userEnd : String) :
    Except FindaErr TickData :=
  if env.installed = false then
    .error (.importError "No module named dukascopy_python")
  else
    let symbol := normSymbol symbol
    wrapDP (do
      let sdt ← user_to_dt userStart
      let edt ← user_to_dt userEnd
      match env.ticks symbol sdt edt with
      | .error m => .error (.pyError m)
      | .ok none => .error (.dataProviderError ("No Dukascopy tick data for " ++ symbol))
      | .ok (some df) =>
        if df.times.isEmpty then
          .error (.dataProviderError ("No Dukascopy tick data for " ++ symbol))
        else
          let n := df.times.length
          .ok { bid := df.bidPrice.getD (List.replicate n 0),
                ask := df.askPrice.getD (List.replicate n 0),
                bidVol := df.bidVolume.getD (List.replicate n 0),
                askVol := df.askVolume.getD (List.replicate n 0),
                realVol := List.replicate n 0,
                times := df.times })

/-- The post-loop step of `fetch_binance_ticks`. -/
def binanceTickFetchCore (src : List BinTrade) (endMs since : Nat) (symbol : String) :
    Except FindaErr (List BinTrade) :=
  let trades := binanceTickLoop src endMs since []
  if trades.isEmpty then .error (.dataProviderError ("No Binance tick data for " ++ symbol))
  else .ok trades

/-- The standardization loop of `fetch_binance_ticks`: both quote sides get
the trade price; a `'buy'` aggressor puts its full size in `ask_vol` and
zero in `bid_vol`, and every other side value — `'sell'` or an unknown
side — takes the `else` branch, putting the full size in `bid_vol`. -/
def binanceSynth (trades : List BinTrade) : TickData :=
  { bid := trades.map (fun t => t.price),
    ask := trades.map (fun t => t.price),
    bidVol := trades.map (fun t => if t.side = some "buy" then 0 else t.amount),
    askVol := trades.map (fun t => if t.side = some "buy" then t.amount else 0),
    realVol := trades.map (fun t => t.amount),
    times := trades.map (fun t => t.ts) }

/-- `fetch_binance_ticks` of `tick_fetcher.py`: paginate trades, then
standardize. The `user_tf` argument is never read. -/
def fetch_binance_ticks (env : BinanceEnv) (symbol _userTf userStart userEnd : String) :
    Except FindaErr TickData :=
  let symbol := normSymbol symbol
  let bsym := removeSlashes symbol
  wrapDP (do
    let sdt ← user_to_dt userStart
    let edt ← user_to_dt userEnd
    match env.tradeSrc bsym with
    | .error m => .error (.pyError m)
    | .ok src => do
      let trades ← binanceTickFetchCore src (toMillis edt) (toMillis sdt) symbol
      .ok (binanceSynth trades))

/-- The response processing of `fetch_alpaca_ticks`, in source order: the
`trades.empty` check, the `MultiIndex` projection, optional `price`/`size`
columns defaulted to zeros, both quote volumes fixed at zero (the aggressor
side is unknown for Alpaca trades), and **no sort** of the result. -/
def alpacaTradesProcess (symbol : String) (trades : AlpacaTradesDF) : Except FindaErr TickData :=
  if trades.rows.isEmpty then
    .error (.dataProviderError ("No Alpaca tick (trade) data for " ++ symbol))
  else
    let projected :=
      if trades.multi then (trades.rows.filter (fun kv => kv.1 = symbol)).map (fun kv => kv.2)
      else trades.rows.map (fun kv => kv.2)
    if trades.multi ∧ projected.isEmpty then
      .error (.pyError ("KeyError: '" ++ symbol ++ "'"))
    else
      let n := projected.length
      let price := if trades.hasPrice then projected.map (fun r => r.price) else List.replicate n 0
      let size := if trades.hasSize then projected.map (fun r => r.size) else List.replicate n 0
      .ok { bid := price, ask := price,
            bidVol := List.replicate n 0, askVol := List.replicate n 0,
            realVol := size, times := projected.map (fun r => r.time) }

/-- `fetch_alpaca_ticks` of `tick_fetcher.py`. The `user_tf` argument is
never read; the credentials only parameterize the client construction. -/
def fetch_alpaca_ticks (env : AlpacaEnv) (symbol _userTf userStart userEnd : String)
    (_apiKey _secretKey : String) : Except FindaErr TickData :=
  if env.installed = false then
    .error (.importError "No module named alpaca")
  else
    let symbol := normSymbol symbol
    wrapDP (do
      let sdt ← user_to_dt userStart
      let edt ← user_to_dt userEnd
      let isCrypto := symbol.data.contains '/' || symbol == "BTCUSD" || symbol == "ETHUSD"
      match (if isCrypto then env.cryptoTrades symbol sdt edt else env.stockTrades symbol sdt edt) with
      | .error m => .error (.pyError m)
      | .ok trades => alpacaTradesProcess symbol trades)

/-- Python truthiness of the optional credential strings in
`if api_key and secret_key`: absent or empty strings are falsy. -/
def pyTruthy : Option String → Bool
  | none => false
  | some s => !s.data.isEmpty

/-- `fetch_unified_ohclv` of `ohlcv_fetcher.py`: Dukascopy, then Binance,
then Alpaca (skipped, with a recorded reason, without credentials); each
failure is caught and recorded as `"Name: {e}"`; the first success is
returned as the bare data tuple — no provider name; exhaustion raises one
`DataProviderError` joining the recorded reasons in attempt order. -/
def fetch_unified_ohclv (env : Env) (symbol userTf userStart userEnd : String)
    (apiKey secretKey : Option String) : Except FindaErr OhlcvData :=
  match fetch_dukascopy_ohclv env.duka symbol userTf userStart userEnd with
  | .ok d => .ok d
  | .error e1 =>
    match fetch_binance_ohclv env.binance symbol userTf userStart userEnd with
    | .ok d => .ok d
    | .error e2 =>
      let errs := ["Dukascopy: " ++ errMsg e1, "Binance: " ++ errMsg e2]
      if pyTruthy apiKey && pyTruthy secretKey then
        match fetch_alpaca_ohclv env.alpaca symbol userTf userStart userEnd
                (apiKey.getD "") (secretKey.getD "") with
        | .ok d => .ok d
        | .error e3 =>
          .error (.dataProviderError ("All providers failed: " ++
            String.intercalate "; " (errs ++ ["Alpaca: " ++ errMsg e3])))
      else
        .error (.dataProviderError ("All providers failed: " ++
          String.intercalate "; " (errs ++ ["Alpaca: Skipped (No keys)"])))

/-- `fetch_unified_tick` of `tick_fetcher.py`: same priority order and
error recording, but each success is returned as a
`(provider_name, data)` pair — and, unlike the OHLCV variant, a missing
credential pair records **no** reason for the skipped Alpaca adapter. -/
def fetch_unified_tick (env : Env) (symbol userTf userStart userEnd : String)
    (apiKey secretKey : Option String) : Except FindaErr (String × TickData) :=
  match fetch_dukascopy_ticks env.duka symbol userTf userStart userEnd with
  | .ok d => .ok ("dukascopy", d)
  | .error e1 =>
    match fetch_binance_ticks env.binance symbol userTf userStart userEnd with
    | .ok d => .ok ("binance", d)
    | .error e2 =>
      let errs := ["Dukascopy: " ++ errMsg e1, "Binance: " ++ errMsg e2]
      if pyTruthy apiKey && pyTruthy secretKey then
        match fetch_alpaca_ticks env.alpaca symbol userTf userStart userEnd
                (apiKey.getD "") (secretKey.getD "") with
        | .ok d => .ok ("alpaca", d)
        | .error e3 =>
          .error (.dataProviderError ("All providers failed: " ++
            String.intercalate "; " (errs ++ ["Alpaca: " ++ errMsg e3])))
      else
        .error (.dataProviderError ("All providers failed: " ++
          String.intercalate "; " errs))

/-- The dynamically-typed Python value a unified fetch returns: the OHLCV
orchestrator returns the bare six-list tuple, the tick orchestrator a
`(provider_name, tuple)` pair. -/
inductive PyRet where
  | bare (d : OhlcvData)
  | tagged (name : String) (d : TickData)
deriving DecidableEq, Repr

/-- The OHLCV orchestrator's return value as the dynamic `PyRet`. -/
def fetchUnifiedOhlcvVal (env : Env) (symbol userTf userStart userEnd : String)
    (apiKey secretKey : Option String) : Except FindaErr PyRet :=
  (fetch_unified_ohclv env symbol userTf userStart userEnd apiKey secretKey).map .bare

/-- The tick orchestrator's return value as the dynamic `PyRet`. -/
def fetchUnifiedTickVal (env : Env) (symbol userTf userStart userEnd : String)
    (apiKey secretKey : Option String) : Except FindaErr PyRet :=
  (fetch_unified_tick env symbol userTf userStart userEnd apiKey secretKey).map
    (fun p => .tagged p.1 p.2)

/-! Concrete test fixtures: small upstream worlds used to evaluate the
embedded fetches at specific inputs. -/

/-- A Dukascopy OHLCV dataframe with two bars and no volume column. -/
def dukaDfA : DukaOhlcvDF :=
  { opens := [10, 11], highs := [12, 13], lows := [9, 10],
    closes := [11, 12], volume := none, times := [100, 200] }

/-- A Dukascopy tick dataframe with one quote and no volume columns. -/
def dukaTdfA : DukaTickDF :=
  { bidPrice := some [5], askPrice := some [6],
    bidVolume := none, askVolume := none, times := [50] }

/-- What `fetch_dukascopy_ohclv` produces from `dukaDfA`. -/
def ohlcvA : OhlcvData :=
  { opens := [10, 11], highs := [12, 13], lows := [9, 10],
    closes := [11, 12], volumes := [0, 0], times := [100, 200] }

/-- What `fetch_dukascopy_ticks` produces from `dukaTdfA`. -/
def tickA : TickData :=
  { bid := [5], ask := [6], bidVol := [0], askVol := [0],
    realVol := [0], times := [50] }

/-- A world where Dukascopy answers and the other upstreams are down. -/
def envDukaOk : Env :=
  { duka :=
      { installed := true,
        ohlcv := fun _ _ _ _ => .ok (some dukaDfA),
        ticks := fun _ _ _ => .ok (some dukaTdfA) },
    binance :=
      { ohlcvSrc := fun _ _ => .error "net down",
        tradeSrc := fun _ => .error "net down" },
    alpaca :=
      { installed := false,
        cryptoBars := fun _ _ _ _ => .error "no client",
        stockBars := fun _ _ _ _ => .error "no client",
        cryptoTrades := fun _ _ _ => .error "no client",
        stockTrades := fun _ _ _ => .error "no client" } }

/-- An Alpaca trades dataframe whose rows arrive out of time order. -/
def alpacaUnsortedTrades : AlpacaTradesDF :=
  { multi := false,
    rows := [("", { time := 5, price := 100, size := 2 }),
             ("", { time := 3, price := 99, size := 1 })],
    hasPrice := true, hasSize := true }

/-- A world where Dukascopy and Binance raise and only Alpaca's crypto
trades endpoint answers (with unsorted rows). -/
def envAllFail : Env :=
  { duka :=
      { installed := true,
        ohlcv := fun _ _ _ _ => .error "timeout",
        ticks := fun _ _ _ => .error "timeout" },
    binance :=
      { ohlcvSrc := fun _ _ => .error "boom",
        tradeSrc := fun _ => .error "boom" },
    alpaca :=
      { installed := true,
        cryptoBars := fun _ _ _ _ => .error "bad creds",
        stockBars := fun _ _ _ _ => .error "bad creds",
        cryptoTrades := fun _ _ _ => .ok alpacaUnsortedTrades,
        stockTrades := fun _ _ _ => .error "bad creds" } }

/-- An Alpaca multi-symbol bars dataframe with out-of-order rows. -/
def alpacaMultiBars : AlpacaBarsDF :=
  { multi := true,
    rows := [("AAPL", { time := 20, openv := 1, highv := 2, lowv := 0, closev := 1, vol := 10 }),
             ("MSFT", { time := 5, openv := 9, highv := 9, lowv := 9, closev := 9, vol := 9 }),
             ("AAPL", { time := 10, openv := 3, highv := 4, lowv := 2, closev := 3, vol := 11 })] }

/-- What `alpacaBarsProcess "AAPL"` makes of `alpacaMultiBars`: the MSFT
row projected away, the rest sorted ascending by time. -/
def ohlcvC8 : OhlcvData :=
  { opens := [3, 1], highs := [4, 2], lows := [2, 0], closes := [3, 1],
    volumes := [11, 10], times := [10, 20] }

/-- What `alpacaTradesProcess` makes of `alpacaUnsortedTrades`: upstream
order kept, not sorted. -/
def tickC8 : TickData :=
  { bid := [100, 99], ask := [100, 99], bidVol := [0, 0], askVol := [0, 0],
    realVol := [2, 1], times := [5, 3] }

/-- A small sorted Binance record source. -/
def binSrcA : List BinRec :=
  [{ ts := 1, openv := 1, highv := 1, lowv := 1, closev := 1, vol := 1 },
   { ts := 2, openv := 2, highv := 2, lowv := 2, closev := 2, vol := 2 },
   { ts := 5, openv := 3, highv := 3, lowv := 3, closev := 3, vol := 3 },
   { ts := 9, openv := 4, highv := 4, lowv := 4, closev := 4, vol := 4 }]

/-- A small sorted Binance trade source. -/
def binTradeSrcA : List BinTrade :=
  [{ ts := 1, price := 100, amount := 5, side := some "buy" },
   { ts := 2, price := 99, amount := 3, side := some "sell" },
   { ts := 7, price := 98, amount := 1, side := none }]

end Finda

namespace Finda

/-! Theorems settling the specification claims. -/

/-- C7: the spec says unit lookup is by *the parsed unit being a prefix of
a canonical key* (so `"mo"` should hit `"month"` and render the month
timeframe). The code tests `unit.startswith(k)` — the key being a prefix of
the unit — and iterates the table in insertion order, so any unit starting
with `"mo"` is captured by the earlier minute key `"m"`: every month token
translates as a minute timeframe and the `MONTH` table entries are
unreachable. -/
theorem c7_month_tokens_translate_as_minutes :
    user_to_dukascopy_tf "1mo" = .ok "1MIN"
    ∧ user_to_dukascopy_tf "1month" = .ok "1MIN"
    ∧ user_to_binance_tf "1mo" = .ok "1m"
    ∧ user_to_binance_tf "1month" = .ok "1m"
    ∧ (∀ cs : List Char,
        unitLookup dukascopyUnits ⟨'m' :: 'o' :: cs⟩ = some "MIN"
        ∧ unitLookup binanceUnits ⟨'m' :: 'o' :: cs⟩ = some "m") := by
  refine ⟨by decide, by decide, by decide, by decide, fun cs => ⟨?_, ?_⟩⟩ <;>
    simp [unitLookup, dukascopyUnits, binanceUnits, List.find?, List.isPrefixOf]

/-- C5: the Alpaca adapter resolves the translated timeframe through
`tf_map.get(tf_str, TimeFrame.Minute)`: a token the translator accepts but
the table lacks (here `"2h"` → `"2Hour"`) silently becomes the one-minute
bar — the whole fetch behaves identically to a `"1min"` request — and a
token with no recognizable unit fails with a plain `ValueError`, not the
`InvalidTimeframeError` that `exceptions.py` declares for this purpose. -/
theorem c5_unrecognized_timeframe_handling :
    (∀ (env : AlpacaEnv) (symbol s e k sec : String),
        fetch_alpaca_ohclv env symbol "2h" s e k sec
          = fetch_alpaca_ohclv env symbol "1min" s e k sec)
    ∧ user_to_alpaca_tf "2h" = .ok "2Hour"
    ∧ tfMapGet "2Hour" = .minute 1
    ∧ user_to_alpaca_tf "1min" = .ok "1Min"
    ∧ tfMapGet "1Min" = .minute 1
    ∧ user_to_dukascopy_tf "1xyz" = .error (.valueError "Unrecognized Dukascopy timeframe: '1xyz'")
    ∧ user_to_binance_tf "1xyz" = .error (.valueError "Unrecognized Binance timeframe: '1xyz'")
    ∧ user_to_alpaca_tf "1xyz" = .error (.valueError "Unrecognized Alpaca timeframe: '1xyz'") := by
  refine ⟨fun env symbol s e k sec => rfl, by decide, by decide, by decide,
    by decide, by decide, by decide, by decide⟩

end Finda

namespace Finda

theorem takeWhile_append_all {α : Type} {p : α → Bool} {xs ys : List α}
    (h : ∀ x ∈ xs, p x = true) : (xs ++ ys).takeWhile p = xs ++ ys.takeWhile p := by
  induction xs with
  | nil => simp
  | cons x xs ih =>
    simp [List.takeWhile_cons, h x (List.mem_cons_self x xs),
      ih (fun a ha => h a (List.mem_cons_of_mem x ha))]

theorem dropWhile_append_all {α : Type} {p : α → Bool} {xs ys : List α}
    (h : ∀ x ∈ xs, p x = true) : (xs ++ ys).dropWhile p = ys.dropWhile p := by
  induction xs with
  | nil => simp
  | cons x xs ih =>
    simp [List.dropWhile_cons, h x (List.mem_cons_self x xs),
      ih (fun a ha => h a (List.mem_cons_of_mem x ha))]

theorem digit_not_letter {c : Char} (h : isAsciiDigit c = true) : isAsciiLetter c = false := by
  simp only [isAsciiDigit, decide_eq_true_eq] at h
  simp only [isAsciiLetter, decide_eq_false_iff_not]
  rintro (⟨h1, _⟩ | ⟨h1, _⟩) <;> exact absurd (le_trans h1 h.2) (by decide)

theorem letter_not_digit {c : Char} (h : isAsciiLetter c = true) : isAsciiDigit c = false := by
  simp only [isAsciiLetter, decide_eq_true_eq] at h
  simp only [isAsciiDigit, decide_eq_false_iff_not]
  rintro ⟨h1, h2⟩
  rcases h with ⟨h3, _⟩ | ⟨h3, _⟩ <;> exact absurd (le_trans h3 h2) (by decide)

/-- C10: `parse_tf` matches only a leading prefix of the token — any
normalized token that starts with letters-then-digits or
digits-then-letters is accepted, everything after the leading match being
silently ignored; in particular `"1min30sec"` parses as `(min, 1)` and
translates as the one-minute timeframe for every provider. -/
theorem parseCore_letters_first (u n : Char) (us' ns' rest : List Char)
    (husl : ∀ c ∈ u :: us', isAsciiLetter c = true)
    (hnsd : ∀ c ∈ n :: ns', isAsciiDigit c = true) :
    (parseCore ((u :: us') ++ (n :: ns') ++ rest)).isSome = true := by
  have hn : isAsciiLetter n = false := digit_not_letter (hnsd n (List.mem_cons_self n ns'))
  have h1 : ((u :: us') ++ (n :: ns') ++ rest).takeWhile isAsciiLetter = u :: us' := by
    rw [List.append_assoc, takeWhile_append_all husl]
    simp [List.takeWhile_cons, hn]
  have h3 : ((u :: us') ++ (n :: ns') ++ rest).dropWhile isAsciiLetter = (n :: ns') ++ rest := by
    rw [List.append_assoc, dropWhile_append_all husl]
    simp [List.dropWhile_cons, hn]
  have h4 : ((n :: ns') ++ rest).takeWhile isAsciiDigit
      = (n :: ns') ++ rest.takeWhile isAsciiDigit :=
    takeWhile_append_all hnsd
  simp only [parseCore, h1, h3, h4]
  simp

theorem parseCore_digits_first (u n : Char) (us' ns' rest : List Char)
    (husl : ∀ c ∈ u :: us', isAsciiLetter c = true)
    (hnsd : ∀ c ∈ n :: ns', isAsciiDigit c = true) :
    (parseCore ((n :: ns') ++ (u :: us') ++ rest)).isSome = true := by
  have hn : isAsciiLetter n = false := digit_not_letter (hnsd n (List.mem_cons_self n ns'))
  have hu : isAsciiDigit u = false := letter_not_digit (husl u (List.mem_cons_self u us'))
  have h1 : ((n :: ns') ++ (u :: us') ++ rest).takeWhile isAsciiLetter = [] := by
    simp [List.takeWhile_cons, hn]
  have h2 : ((n :: ns') ++ (u :: us') ++ rest).takeWhile isAsciiDigit
      = (n :: ns') ++ ((u :: us') ++ rest).takeWhile isAsciiDigit := by
    rw [List.append_assoc, takeWhile_append_all hnsd]
  have h2b : ((u :: us') ++ rest).takeWhile isAsciiDigit = [] := by
    simp [List.takeWhile_cons, hu]
  have h3 : ((n :: ns') ++ (u :: us') ++ rest).dropWhile isAsciiDigit = (u :: us') ++ rest := by
    rw [List.append_assoc, dropWhile_append_all hnsd]
    simp [List.dropWhile_cons, hu]
  have h4 : ((u :: us') ++ rest).takeWhile isAsciiLetter
      = (u :: us') ++ rest.takeWhile isAsciiLetter :=
    takeWhile_append_all husl
  simp only [parseCore, h1, h2, h2b, h3, h4]
  simp

/-- C10: `parse_tf` matches only a leading prefix of the token — any
normalized token that starts with letters-then-digits or
digits-then-letters is accepted, everything after the leading match being
silently ignored; in particular `"1min30sec"` parses as `(min, 1)` and
translates as the one-minute timeframe for every provider. -/
theorem c10_prefix_only_parsing (tf : String) (us ns rest : List Char)
    (hsplit : (pyStrip tf.data).map Char.toLower = us ++ ns ++ rest
              ∨ (pyStrip tf.data).map Char.toLower = ns ++ us ++ rest)
    (hus : us ≠ []) (husl : ∀ c ∈ us, isAsciiLetter c = true)
    (hns : ns ≠ []) (hnsd : ∀ c ∈ ns, isAsciiDigit c = true) :
    (parse_tf tf).isSome = true
    ∧ parse_tf "1min30sec" = some ("min", "1")
    ∧ user_to_dukascopy_tf "1min30sec" = .ok "1MIN"
    ∧ user_to_binance_tf "1min30sec" = .ok "1m"
    ∧ user_to_alpaca_tf "1min30sec" = .ok "1Min" := by
  refine ⟨?_, by decide, by decide, by decide, by decide⟩
  obtain ⟨n, ns', rfl⟩ : ∃ n ns', ns = n :: ns' := by
    cases ns with
    | nil => exact absurd rfl hns
    | cons n ns' => exact ⟨n, ns', rfl⟩
  obtain ⟨u, us', rfl⟩ : ∃ u us', us = u :: us' := by
    cases us with
    | nil => exact absurd rfl hus
    | cons u us' => exact ⟨u, us', rfl⟩
  unfold parse_tf
  rcases hsplit with hsplit | hsplit <;> rw [hsplit]
  · exact parseCore_letters_first u n us' ns' rest husl hnsd
  · exact parseCore_digits_first u n us' ns' rest husl hnsd

/-- Witness for C10 at the token `"1min30sec"`. -/
theorem c10_prefix_only_parsing_witness :
    (parse_tf "1min30sec").isSome = true
    ∧ parse_tf "1min30sec" = some ("min", "1")
    ∧ user_to_dukascopy_tf "1min30sec" = .ok "1MIN"
    ∧ user_to_binance_tf "1min30sec" = .ok "1m"
    ∧ user_to_alpaca_tf "1min30sec" = .ok "1Min" :=
  c10_prefix_only_parsing "1min30sec" ['m', 'i', 'n'] ['1'] ['3', '0', 's', 'e', 'c']
    (Or.inr (by decide)) (by decide) (by decide) (by decide) (by decide)

end Finda

namespace Finda

/-- C2 counterexample: an unrecognized timeframe token does **not** fail
fast with an uncaught format error. For the OHLCV variant the `ValueError`
is raised inside each adapter, wrapped into that adapter's
`DataProviderError`, caught by the orchestrator and recorded in the
fallback aggregate like any provider failure; and the tick variant never
parses the timeframe token at all, so the same malformed token even
*succeeds* through Dukascopy. -/
theorem c2_counterexample_format_error_recorded :
    fetch_unified_ohclv envDukaOk "EUR/USD" "1xyz" "2023-01-01" "2023-01-02" none none
      = .error (.dataProviderError
          "All providers failed: Dukascopy: Unrecognized Dukascopy timeframe: '1xyz'; Binance: Unrecognized Binance timeframe: '1xyz'; Alpaca: Skipped (No keys)")
    ∧ fetch_unified_tick envDukaOk "EUR/USD" "1xyz" "2023-01-01" "2023-01-02" none none
      = .ok ("dukascopy", tickA) := by
  exact ⟨by decide, by decide⟩

/-- C2 (amended): a timeframe token matching no recognized grammar is
raised as a `ValueError` inside each OHLCV adapter that translates it,
wrapped into that adapter's `DataProviderError`, caught by the
orchestrator, and recorded as an ordinary provider failure in the
aggregate; later adapters are still attempted. The tick adapters never
read the timeframe token, so the same call can succeed. -/
theorem c2_amended_format_error_is_provider_failure (env : Env) (symbol tf s e : String)
    (m1 m2 : String)
    (hinst : env.duka.installed = true)
    (hd : user_to_dukascopy_tf tf = .error (.valueError m1))
    (hb : user_to_binance_tf tf = .error (.valueError m2)) :
    fetch_unified_ohclv env symbol tf s e none none
      = .error (.dataProviderError ("All providers failed: " ++ String.intercalate "; "
          ["Dukascopy: " ++ m1, "Binance: " ++ m2, "Alpaca: Skipped (No keys)"]))
    ∧ (∀ d, fetch_dukascopy_ticks env.duka symbol tf s e = .ok d →
        fetch_unified_tick env symbol tf s e none none = .ok ("dukascopy", d)) := by
  constructor
  · have hd' : fetch_dukascopy_ohclv env.duka symbol tf s e
        = .error (.dataProviderError m1) := by
      simp [fetch_dukascopy_ohclv, hinst, hd, wrapDP, errMsg, Except.bind, bind]
    have hb' : fetch_binance_ohclv env.binance symbol tf s e
        = .error (.dataProviderError m2) := by
      simp [fetch_binance_ohclv, hb, wrapDP, errMsg, Except.bind, bind]
    simp [fetch_unified_ohclv, hd', hb', pyTruthy, errMsg]
  · intro d h
    simp [fetch_unified_tick, h]

/-- Witness for the amended C2 at the token `"1xyz"`. -/
theorem c2_amended_witness :
    fetch_unified_ohclv envDukaOk "SYM" "1xyz" "2023-01-01" "2023-01-02" none none
      = .error (.dataProviderError ("All providers failed: " ++ String.intercalate "; "
          ["Dukascopy: " ++ "Unrecognized Dukascopy timeframe: '1xyz'",
           "Binance: " ++ "Unrecognized Binance timeframe: '1xyz'",
           "Alpaca: Skipped (No keys)"]))
    ∧ (∀ d, fetch_dukascopy_ticks envDukaOk.duka "SYM" "1xyz" "2023-01-01" "2023-01-02" = .ok d →
        fetch_unified_tick envDukaOk "SYM" "1xyz" "2023-01-01" "2023-01-02" none none
          = .ok ("dukascopy", d)) :=
  c2_amended_format_error_is_provider_failure envDukaOk "SYM" "1xyz" "2023-01-01" "2023-01-02"
    "Unrecognized Dukascopy timeframe: '1xyz'" "Unrecognized Binance timeframe: '1xyz'"
    (by decide) (by decide) (by decide)

/-- C9 counterexample: in the tick variant, a missing credential pair
records **no** "skipped" reason for the broker — when every attempted
provider fails, the aggregate message carries only the Dukascopy and
Binance reasons and never mentions Alpaca. -/
theorem c9_counterexample_no_skip_reason_in_tick :
    fetch_unified_tick envAllFail "GBPUSD" "tick" "2023-01-01" "2023-01-02" none none
      = .error (.dataProviderError "All providers failed: Dukascopy: timeout; Binance: boom")
    ∧ ¬ ("Alpaca".data <:+: ("All providers failed: Dukascopy: timeout; Binance: boom").data) := by
  exact ⟨by decide, by decide⟩

/-- C9 (amended): without credentials the broker adapter is never
attempted in either variant; the OHLCV orchestrator records the distinct
`"Alpaca: Skipped (No keys)"` reason in its aggregate, while the tick
orchestrator records nothing for the broker, so its aggregate holds only
the Dukascopy and Binance reasons. -/
theorem c9_amended_skip_reason_only_in_ohlcv (env : Env) (symbol tf s e : String)
    (ak sk : Option String)
    (hcreds : (pyTruthy ak && pyTruthy sk) = false) :
    (∀ e1 e2, fetch_dukascopy_ohclv env.duka symbol tf s e = .error e1 →
      fetch_binance_ohclv env.binance symbol tf s e = .error e2 →
      fetch_unified_ohclv env symbol tf s e ak sk
        = .error (.dataProviderError ("All providers failed: " ++ String.intercalate "; "
            ["Dukascopy: " ++ errMsg e1, "Binance: " ++ errMsg e2, "Alpaca: Skipped (No keys)"])))
    ∧ (∀ e1 e2, fetch_dukascopy_ticks env.duka symbol tf s e = .error e1 →
      fetch_binance_ticks env.binance symbol tf s e = .error e2 →
      fetch_unified_tick env symbol tf s e ak sk
        = .error (.dataProviderError ("All providers failed: " ++ String.intercalate "; "
            ["Dukascopy: " ++ errMsg e1, "Binance: " ++ errMsg e2]))) := by
  constructor
  · intro e1 e2 h1 h2
    simp [fetch_unified_ohclv, h1, h2, hcreds]
  · intro e1 e2 h1 h2
    simp [fetch_unified_tick, h1, h2, hcreds]

/-- Witness for the amended C9 in the all-fail world without credentials. -/
theorem c9_amended_witness :
    fetch_unified_ohclv envAllFail "GBPUSD" "1h" "2023-01-01" "2023-01-02" none none
      = .error (.dataProviderError ("All providers failed: " ++ String.intercalate "; "
          ["Dukascopy: " ++ errMsg (.dataProviderError "timeout"),
           "Binance: " ++ errMsg (.dataProviderError "boom"),
           "Alpaca: Skipped (No keys)"])) :=
  (c9_amended_skip_reason_only_in_ohlcv envAllFail "GBPUSD" "1h" "2023-01-01" "2023-01-02"
      none none (by decide)).1
    (.dataProviderError "timeout") (.dataProviderError "boom") (by decide) (by decide)

end Finda

namespace Finda

/-- C6 counterexample: a successful unified OHLCV fetch returns the bare
record tuple — there is no provider name anywhere in the returned value,
so the claim that both variants return `(records, provider_name)` fails on
the OHLCV variant. -/
theorem c6_counterexample_ohlcv_returns_no_name :
    fetchUnifiedOhlcvVal envDukaOk "EUR/USD" "1h" "2023-01-01" "2023-01-02" none none
      = .ok (.bare ohlcvA)
    ∧ ¬ ∃ n td, fetchUnifiedOhlcvVal envDukaOk "EUR/USD" "1h" "2023-01-01" "2023-01-02" none none
        = .ok (.tagged n td) := by
  have h1 : fetchUnifiedOhlcvVal envDukaOk "EUR/USD" "1h" "2023-01-01" "2023-01-02" none none
      = .ok (.bare ohlcvA) := by decide
  refine ⟨h1, ?_⟩
  rintro ⟨n, td, h2⟩
  rw [h1] at h2
  simp at h2

/-- C6 (amended): only the tick variant tags its result with the producing
provider's name; the OHLCV variant returns the record lists alone. -/
theorem c6_amended_only_tick_returns_name (env : Env) (symbol tf s e : String)
    (ak sk : Option String) :
    (∀ d, fetch_dukascopy_ticks env.duka symbol tf s e = .ok d →
        fetchUnifiedTickVal env symbol tf s e ak sk = .ok (.tagged "dukascopy" d))
    ∧ (∀ e1 d, fetch_dukascopy_ticks env.duka symbol tf s e = .error e1 →
        fetch_binance_ticks env.binance symbol tf s e = .ok d →
        fetchUnifiedTickVal env symbol tf s e ak sk = .ok (.tagged "binance" d))
    ∧ (∀ e1 e2 d, fetch_dukascopy_ticks env.duka symbol tf s e = .error e1 →
        fetch_binance_ticks env.binance symbol tf s e = .error e2 →
        (pyTruthy ak && pyTruthy sk) = true →
        fetch_alpaca_ticks env.alpaca symbol tf s e (ak.getD "") (sk.getD "") = .ok d →
        fetchUnifiedTickVal env symbol tf s e ak sk = .ok (.tagged "alpaca" d))
    ∧ (∀ d, fetch_dukascopy_ohclv env.duka symbol tf s e = .ok d →
        fetchUnifiedOhlcvVal env symbol tf s e ak sk = .ok (.bare d))
    ∧ (∀ e1 d, fetch_dukascopy_ohclv env.duka symbol tf s e = .error e1 →
        fetch_binance_ohclv env.binance symbol tf s e = .ok d →
        fetchUnifiedOhlcvVal env symbol tf s e ak sk = .ok (.bare d))
    ∧ (∀ e1 e2 d, fetch_dukascopy_ohclv env.duka symbol tf s e = .error e1 →
        fetch_binance_ohclv env.binance symbol tf s e = .error e2 →
        (pyTruthy ak && pyTruthy sk) = true →
        fetch_alpaca_ohclv env.alpaca symbol tf s e (ak.getD "") (sk.getD "") = .ok d →
        fetchUnifiedOhlcvVal env symbol tf s e ak sk = .ok (.bare d)) := by
  refine ⟨?_, ?_, ?_, ?_, ?_, ?_⟩
  · intro d h
    simp [fetchUnifiedTickVal, fetch_unified_tick, Except.map, h]
  · intro e1 d h1 h2
    simp [fetchUnifiedTickVal, fetch_unified_tick, Except.map, h1, h2]
  · intro e1 e2 d h1 h2 hc h3
    simp [fetchUnifiedTickVal, fetch_unified_tick, Except.map, h1, h2, hc, h3]
  · intro d h
    simp [fetchUnifiedOhlcvVal, fetch_unified_ohclv, Except.map, h]
  · intro e1 d h1 h2
    simp [fetchUnifiedOhlcvVal, fetch_unified_ohclv, Except.map, h1, h2]
  · intro e1 e2 d h1 h2 hc h3
    simp [fetchUnifiedOhlcvVal, fetch_unified_ohclv, Except.map, h1, h2, hc, h3]

/-- Witness for the amended C6: the Dukascopy tick success is tagged. -/
theorem c6_amended_witness :
    fetchUnifiedTickVal envDukaOk "EUR/USD" "1h" "2023-01-01" "2023-01-02" none none
      = .ok (.tagged "dukascopy" tickA) :=
  (c6_amended_only_tick_returns_name envDukaOk "EUR/USD" "1h" "2023-01-01" "2023-01-02"
      none none).1 tickA (by decide)

/-- C3 counterexample: a Binance trade whose aggressor side is unknown
(`side = None`) does **not** put zero in both quote-volume fields — it
takes the `else` (sell) branch and puts its full size into `bid_volume`. -/
theorem c3_counterexample_unknown_side_not_zeroed :
    (binanceSynth [{ ts := 1, price := 100, amount := 5, side := none }]).bidVol = [5]
    ∧ (binanceSynth [{ ts := 1, price := 100, amount := 5, side := none }]).askVol = [0]
    ∧ (binanceSynth [{ ts := 1, price := 100, amount := 5, side := none }]).bidVol ≠ [0] := by
  exact ⟨by decide, by decide, by decide⟩

/-- C3 (amended): in the Binance tick synthesis, every trade sets
`bid = ask = price` and `trade_volume = size`; a buy-side aggressor puts
its full size in `ask_volume` and zero in `bid_volume`, and every other
side value — `'sell'` or an unknown side — puts the full size in
`bid_volume` and zero in `ask_volume`. The Alpaca adapter, whose trades
carry no side information, reports zero in both quote-volume fields. -/
theorem c3_amended_tick_synthesis (trades : List BinTrade) (i : Nat) (t : BinTrade)
    (ht : trades[i]? = some t) :
    (binanceSynth trades).bid[i]? = some t.price
    ∧ (binanceSynth trades).ask[i]? = some t.price
    ∧ (binanceSynth trades).realVol[i]? = some t.amount
    ∧ (t.side = some "buy" →
        (binanceSynth trades).askVol[i]? = some t.amount
        ∧ (binanceSynth trades).bidVol[i]? = some 0)
    ∧ (t.side ≠ some "buy" →
        (binanceSynth trades).bidVol[i]? = some t.amount
        ∧ (binanceSynth trades).askVol[i]? = some 0)
    ∧ (∀ symbol tdf td, alpacaTradesProcess symbol tdf = .ok td →
        td.bid = td.ask ∧ (∀ v ∈ td.bidVol, v = 0) ∧ (∀ v ∈ td.askVol, v = 0)) := by
  refine ⟨?_, ?_, ?_, ?_, ?_, ?_⟩
  · simp [binanceSynth, List.getElem?_map, ht]
  · simp [binanceSynth, List.getElem?_map, ht]
  · simp [binanceSynth, List.getElem?_map, ht]
  · intro hs
    constructor <;> simp [binanceSynth, List.getElem?_map, ht, hs]
  · intro hs
    constructor <;> simp [binanceSynth, List.getElem?_map, ht, hs]
  · intro symbol tdf td h
    simp only [alpacaTradesProcess] at h
    split_ifs at h
    any_goals simp at h
    all_goals subst h
    all_goals refine ⟨rfl, ?_, ?_⟩
    all_goals intro v hv
    all_goals exact List.eq_of_mem_replicate hv

end Finda

namespace Finda

/-- Witness for the amended C3 at a concrete unknown-side trade. -/
theorem c3_amended_witness :
    (binanceSynth binTradeSrcA).bid[2]? = some (98 : Int)
    ∧ (binanceSynth binTradeSrcA).ask[2]? = some (98 : Int)
    ∧ (binanceSynth binTradeSrcA).realVol[2]? = some (1 : Int)
    ∧ ((({ ts := 7, price := 98, amount := 1, side := none } : BinTrade).side = some "buy") →
        (binanceSynth binTradeSrcA).askVol[2]? = some (1 : Int)
        ∧ (binanceSynth binTradeSrcA).bidVol[2]? = some 0)
    ∧ ((({ ts := 7, price := 98, amount := 1, side := none } : BinTrade).side ≠ some "buy") →
        (binanceSynth binTradeSrcA).bidVol[2]? = some (1 : Int)
        ∧ (binanceSynth binTradeSrcA).askVol[2]? = some 0)
    ∧ (∀ symbol tdf td, alpacaTradesProcess symbol tdf = .ok td →
        td.bid = td.ask ∧ (∀ v ∈ td.bidVol, v = 0) ∧ (∀ v ∈ td.askVol, v = 0)) :=
  c3_amended_tick_synthesis binTradeSrcA 2 { ts := 7, price := 98, amount := 1, side := none }
    (by decide)

/-- C8 counterexample: the broker tick adapter does not sort — with
upstream trades arriving out of time order, the returned tick times are
exactly the upstream order and not ascending. -/
theorem c8_counterexample_alpaca_ticks_unsorted :
    fetch_alpaca_ticks envAllFail.alpaca "BTCUSD" "tick" "2023-01-01" "2023-01-02" "k" "s"
      = .ok { bid := [100, 99], ask := [100, 99], bidVol := [0, 0], askVol := [0, 0],
              realVol := [2, 1], times := [5, 3] }
    ∧ ¬ ([5, 3] : List Nat).Pairwise (· ≤ ·) := by
  exact ⟨by decide, by decide⟩

theorem insertBarByTime_mem {r x : AlpacaBarRow} {l : List AlpacaBarRow}
    (h : x ∈ insertBarByTime r l) : x = r ∨ x ∈ l := by
  induction l with
  | nil => simpa [insertBarByTime] using h
  | cons a l ih =>
    unfold insertBarByTime at h
    by_cases hc : r.time ≤ a.time
    · simp [hc] at h
      rcases h with h | h | h
      · exact Or.inl h
      · exact Or.inr (by simp [h])
      · exact Or.inr (List.mem_cons_of_mem a h)
    · simp [hc] at h
      rcases h with h | h
      · exact Or.inr (by simp [h])
      · rcases ih h with h' | h'
        · exact Or.inl h'
        · exact Or.inr (List.mem_cons_of_mem a h')

theorem insertBarByTime_pairwise {r : AlpacaBarRow} {l : List AlpacaBarRow}
    (h : l.Pairwise (fun a b => a.time ≤ b.time)) :
    (insertBarByTime r l).Pairwise (fun a b => a.time ≤ b.time) := by
  induction l with
  | nil => simp [insertBarByTime]
  | cons a l ih =>
    rcases List.pairwise_cons.mp h with ⟨ha, hl⟩
    unfold insertBarByTime
    by_cases hc : r.time ≤ a.time
    · simp only [hc, if_true]
      refine List.pairwise_cons.mpr ⟨?_, h⟩
      intro b hb
      rcases hb with _ | hb
      · exact hc
      · exact le_trans hc (ha b (by assumption))
    · simp only [hc, if_false]
      refine List.pairwise_cons.mpr ⟨?_, ih hl⟩
      intro b hb
      rcases insertBarByTime_mem hb with rfl | hb'
      · exact le_of_not_le hc
      · exact ha b hb'

theorem sortBarsByTime_pairwise (l : List AlpacaBarRow) :
    (sortBarsByTime l).Pairwise (fun a b => a.time ≤ b.time) := by
  unfold sortBarsByTime
  induction l with
  | nil => simp
  | cons a l ih => exact insertBarByTime_pairwise ih

theorem sortBarsByTime_mem {x : AlpacaBarRow} {l : List AlpacaBarRow}
    (h : x ∈ sortBarsByTime l) : x ∈ l := by
  induction l with
  | nil => simp [sortBarsByTime] at h
  | cons a l ih =>
    rcases insertBarByTime_mem h with rfl | h'
    · exact List.mem_cons_self x l
    · exact List.mem_cons_of_mem a (ih h')

/-- C8 (amended): the broker OHLCV adapter sorts its result ascending by
time and, for a multi-symbol response, uses only the rows keyed by the
requested symbol; the broker tick adapter projects the same way but does
**not** sort — its output keeps the upstream row order. -/
theorem c8_amended_ohlcv_sorted_ticks_projected_unsorted (symbol : String)
    (bars : AlpacaBarsDF) (trades : AlpacaTradesDF) (d : OhlcvData) (td : TickData)
    (hbars : alpacaBarsProcess symbol bars = .ok d)
    (htrades : alpacaTradesProcess symbol trades = .ok td) :
    d.times.Pairwise (· ≤ ·)
    ∧ (bars.multi = true → ∀ t ∈ d.times,
        t ∈ (bars.rows.filter (fun kv => kv.1 = symbol)).map (fun kv => kv.2.time))
    ∧ (trades.multi = true →
        td.times = (trades.rows.filter (fun kv => kv.1 = symbol)).map (fun kv => kv.2.time))
    ∧ (trades.multi = false →
        td.times = trades.rows.map (fun kv => kv.2.time)) := by
  have hbarsPart : d.times.Pairwise (· ≤ ·)
      ∧ (bars.multi = true → ∀ t ∈ d.times,
          t ∈ (bars.rows.filter (fun kv => kv.1 = symbol)).map (fun kv => kv.2.time)) := by
    simp only [alpacaBarsProcess] at hbars
    split_ifs at hbars with h1 h2 h3
    any_goals simp at hbars
    all_goals subst hbars
    · constructor
      · simpa [List.pairwise_map] using
          sortBarsByTime_pairwise
            ((bars.rows.filter (fun kv => decide (kv.1 = symbol))).map (fun kv => kv.2))
      · intro hm t ht
        simp only [List.mem_map] at ht
        obtain ⟨r, hr, rfl⟩ := ht
        have hmem := sortBarsByTime_mem hr
        simp only [List.mem_map] at hmem
        obtain ⟨kv, hkv, rfl⟩ := hmem
        exact List.mem_map.mpr ⟨kv, hkv, rfl⟩
    · constructor
      · simpa [List.pairwise_map] using
          sortBarsByTime_pairwise (bars.rows.map (fun kv => kv.2))
      · intro hm
        exact absurd hm (by simpa using h2)
  refine ⟨hbarsPart.1, hbarsPart.2, ?_, ?_⟩ <;>
    · intro hm
      simp only [alpacaTradesProcess] at htrades
      split_ifs at htrades
      any_goals simp at htrades
      all_goals subst htrades
      all_goals simp_all [List.map_map, Function.comp]

end Finda

namespace Finda

/-- Witness for the amended C8 on a concrete multi-symbol bars response and
a concrete unsorted trades response. -/
theorem c8_amended_witness :
    ohlcvC8.times.Pairwise (· ≤ ·)
    ∧ (alpacaMultiBars.multi = true → ∀ t ∈ ohlcvC8.times,
        t ∈ (alpacaMultiBars.rows.filter (fun kv => kv.1 = "AAPL")).map (fun kv => kv.2.time))
    ∧ (alpacaUnsortedTrades.multi = true →
        tickC8.times
          = (alpacaUnsortedTrades.rows.filter (fun kv => kv.1 = "AAPL")).map
              (fun kv => kv.2.time))
    ∧ (alpacaUnsortedTrades.multi = false →
        tickC8.times = alpacaUnsortedTrades.rows.map (fun kv => kv.2.time)) :=
  c8_amended_ohlcv_sorted_ticks_projected_unsorted "AAPL" alpacaMultiBars alpacaUnsortedTrades
    ohlcvC8 tickC8 (by decide) (by decide)

/-- C1: in both unified fetches the adapters are attempted in the fixed
order Dukascopy, Binance, Alpaca; the first success short-circuits (the
result does not depend on the later adapters' upstreams at all); every
failure is caught and recorded as its `"Name: reason"` entry; and exactly
when all attempted adapters fail, one aggregate `DataProviderError` is
raised whose message joins the recorded entries in attempt order. -/
theorem c1_fallback_short_circuit_and_aggregate (env env' : Env) (symbol tf s e : String)
    (ak sk : Option String) :
    (∀ d, fetch_dukascopy_ohclv env.duka symbol tf s e = .ok d →
        fetch_unified_ohclv env symbol tf s e ak sk = .ok d
        ∧ (env'.duka = env.duka →
            fetch_unified_ohclv env' symbol tf s e ak sk = .ok d))
    ∧ (∀ e1 d, fetch_dukascopy_ohclv env.duka symbol tf s e = .error e1 →
        fetch_binance_ohclv env.binance symbol tf s e = .ok d →
        fetch_unified_ohclv env symbol tf s e ak sk = .ok d
        ∧ (env'.duka = env.duka → env'.binance = env.binance →
            fetch_unified_ohclv env' symbol tf s e ak sk = .ok d))
    ∧ (∀ e1 e2 d, fetch_dukascopy_ohclv env.duka symbol tf s e = .error e1 →
        fetch_binance_ohclv env.binance symbol tf s e = .error e2 →
        (pyTruthy ak && pyTruthy sk) = true →
        fetch_alpaca_ohclv env.alpaca symbol tf s e (ak.getD "") (sk.getD "") = .ok d →
        fetch_unified_ohclv env symbol tf s e ak sk = .ok d)
    ∧ (∀ e1 e2 e3, fetch_dukascopy_ohclv env.duka symbol tf s e = .error e1 →
        fetch_binance_ohclv env.binance symbol tf s e = .error e2 →
        (pyTruthy ak && pyTruthy sk) = true →
        fetch_alpaca_ohclv env.alpaca symbol tf s e (ak.getD "") (sk.getD "") = .error e3 →
        fetch_unified_ohclv env symbol tf s e ak sk
          = .error (.dataProviderError ("All providers failed: " ++ String.intercalate "; "
              ["Dukascopy: " ++ errMsg e1, "Binance: " ++ errMsg e2, "Alpaca: " ++ errMsg e3])))
    ∧ (∀ e1 e2, fetch_dukascopy_ohclv env.duka symbol tf s e = .error e1 →
        fetch_binance_ohclv env.binance symbol tf s e = .error e2 →
        (pyTruthy ak && pyTruthy sk) = false →
        fetch_unified_ohclv env symbol tf s e ak sk
          = .error (.dataProviderError ("All providers failed: " ++ String.intercalate "; "
              ["Dukascopy: " ++ errMsg e1, "Binance: " ++ errMsg e2,
               "Alpaca: Skipped (No keys)"])))
    ∧ (∀ d, fetch_dukascopy_ticks env.duka symbol tf s e = .ok d →
        fetch_unified_tick env symbol tf s e ak sk = .ok ("dukascopy", d)
        ∧ (env'.duka = env.duka →
            fetch_unified_tick env' symbol tf s e ak sk = .ok ("dukascopy", d)))
    ∧ (∀ e1 d, fetch_dukascopy_ticks env.duka symbol tf s e = .error e1 →
        fetch_binance_ticks env.binance symbol tf s e = .ok d →
        fetch_unified_tick env symbol tf s e ak sk = .ok ("binance", d)
        ∧ (env'.duka = env.duka → env'.binance = env.binance →
            fetch_unified_tick env' symbol tf s e ak sk = .ok ("binance", d)))
    ∧ (∀ e1 e2 d, fetch_dukascopy_ticks env.duka symbol tf s e = .error e1 →
        fetch_binance_ticks env.binance symbol tf s e = .error e2 →
        (pyTruthy ak && pyTruthy sk) = true →
        fetch_alpaca_ticks env.alpaca symbol tf s e (ak.getD "") (sk.getD "") = .ok d →
        fetch_unified_tick env symbol tf s e ak sk = .ok ("alpaca", d))
    ∧ (∀ e1 e2 e3, fetch_dukascopy_ticks env.duka symbol tf s e = .error e1 →
        fetch_binance_ticks env.binance symbol tf s e = .error e2 →
        (pyTruthy ak && pyTruthy sk) = true →
        fetch_alpaca_ticks env.alpaca symbol tf s e (ak.getD "") (sk.getD "") = .error e3 →
        fetch_unified_tick env symbol tf s e ak sk
          = .error (.dataProviderError ("All providers failed: " ++ String.intercalate "; "
              ["Dukascopy: " ++ errMsg e1, "Binance: " ++ errMsg e2, "Alpaca: " ++ errMsg e3]))) := by
  refine ⟨?_, ?_, ?_, ?_, ?_, ?_, ?_, ?_, ?_⟩
  · intro d h
    exact ⟨by simp [fetch_unified_ohclv, h],
           fun hd => by simp [fetch_unified_ohclv, hd, h]⟩
  · intro e1 d h1 h2
    exact ⟨by simp [fetch_unified_ohclv, h1, h2],
           fun hd hb => by simp [fetch_unified_ohclv, hd, hb, h1, h2]⟩
  · intro e1 e2 d h1 h2 hc h3
    simp [fetch_unified_ohclv, h1, h2, hc, h3]
  · intro e1 e2 e3 h1 h2 hc h3
    simp [fetch_unified_ohclv, h1, h2, hc, h3]
  · intro e1 e2 h1 h2 hc
    simp [fetch_unified_ohclv, h1, h2, hc]
  · intro d h
    exact ⟨by simp [fetch_unified_tick, h],
           fun hd => by simp [fetch_unified_tick, hd, h]⟩
  · intro e1 d h1 h2
    exact ⟨by simp [fetch_unified_tick, h1, h2],
           fun hd hb => by simp [fetch_unified_tick, hd, hb, h1, h2]⟩
  · intro e1 e2 d h1 h2 hc h3
    simp [fetch_unified_tick, h1, h2, hc, h3]
  · intro e1 e2 e3 h1 h2 hc h3
    simp [fetch_unified_tick, h1, h2, hc, h3]

/-- Witness for C1: a Dukascopy success short-circuits the OHLCV fetch. -/
theorem c1_witness :
    fetch_unified_ohclv envDukaOk "EUR/USD" "1h" "2023-01-01" "2023-01-02" none none = .ok ohlcvA
    ∧ (envAllFail.duka = envDukaOk.duka →
        fetch_unified_ohclv envAllFail "EUR/USD" "1h" "2023-01-01" "2023-01-02" none none
          = .ok ohlcvA) :=
  (c1_fallback_short_circuit_and_aggregate envDukaOk envAllFail "EUR/USD" "1h"
      "2023-01-01" "2023-01-02" none none).1 ohlcvA (by decide)

end Finda

namespace Finda

theorem lastTsRec_mem {l : List BinRec} (h : l ≠ []) : ∃ y ∈ l, lastTsRec l = y.ts :=
  ⟨l.getLast h, List.getLast_mem h, by simp [lastTsRec, List.getLast?_eq_getLast l h]⟩

theorem lastTsRec_max : ∀ {l : List BinRec}, l.Pairwise (fun a b => a.ts < b.ts) →
    ∀ {x : BinRec}, x ∈ l → x.ts ≤ lastTsRec l := by
  intro l
  induction l with
  | nil => intro _ x hx; cases hx
  | cons a t ih =>
    intro hl x hx
    rcases List.pairwise_cons.mp hl with ⟨ha, ht⟩
    cases hx with
    | head =>
      cases t with
      | nil => simp [lastTsRec]
      | cons b t' =>
        obtain ⟨y, hy, hEq⟩ := lastTsRec_mem (l := b :: t') (by simp)
        have hstep : lastTsRec (a :: b :: t') = lastTsRec (b :: t') := by
          simp [lastTsRec, List.getLast?_cons_cons]
        rw [hstep, hEq]
        exact le_of_lt (ha y hy)
    | tail _ hx =>
      cases t with
      | nil => cases hx
      | cons b t' =>
        have hstep : lastTsRec (a :: b :: t') = lastTsRec (b :: t') := by
          simp [lastTsRec, List.getLast?_cons_cons]
        rw [hstep]
        exact ih ht hx

theorem binPage_sublist (src : List BinRec) (since limit : Nat) :
    (binPage src since limit).Sublist src :=
  (List.take_sublist _ _).trans (List.filter_sublist _)

theorem binPage_mem {src : List BinRec} {since limit : Nat} {r : BinRec}
    (h : r ∈ binPage src since limit) : r ∈ src ∧ since ≤ r.ts := by
  have h1 := List.mem_of_mem_take h
  exact ⟨(List.mem_filter.mp h1).1, by simpa using (List.mem_filter.mp h1).2⟩

theorem binPage_pairwise {src : List BinRec} (hsrc : src.Pairwise (fun a b => a.ts < b.ts))
    (since limit : Nat) : (binPage src since limit).Pairwise (fun a b => a.ts < b.ts) :=
  hsrc.sublist (binPage_sublist src since limit)

theorem binanceOhlcvGo_acc_mem (src : List BinRec) (endMs : Nat) :
    ∀ (fuel since : Nat) (acc : List BinRec) (r : BinRec),
      r ∈ acc → r ∈ binanceOhlcvGo src endMs fuel since acc := by
  intro fuel
  induction fuel with
  | zero => intro since acc r h; simpa [binanceOhlcvGo] using h
  | succ fuel ih =>
    intro since acc r h
    simp only [binanceOhlcvGo]
    split_ifs
    · exact h
    · exact List.mem_append_left _ h
    · exact ih _ _ r (List.mem_append_left _ h)
    · exact h

theorem binanceOhlcvGo_mem (src : List BinRec) (endMs : Nat) :
    ∀ (fuel since : Nat) (acc : List BinRec) (r : BinRec),
      r ∈ binanceOhlcvGo src endMs fuel since acc →
      r ∈ acc ∨ (r ∈ src ∧ since ≤ r.ts ∧ r.ts ≤ endMs) := by
  intro fuel
  induction fuel with
  | zero => intro since acc r h; exact Or.inl (by simpa [binanceOhlcvGo] using h)
  | succ fuel ih =>
    intro since acc r h
    simp only [binanceOhlcvGo] at h
    split_ifs at h with hlt hp hshort
    · exact Or.inl h
    · rcases List.mem_append.mp h with h' | h'
      · exact Or.inl h'
      · have hpg := List.mem_of_mem_filter h'
        have hts : r.ts ≤ endMs := by simpa using List.of_mem_filter h'
        obtain ⟨hs, hge⟩ := binPage_mem hpg
        exact Or.inr ⟨hs, hge, hts⟩
    · rcases ih _ _ r h with h' | h'
      · rcases List.mem_append.mp h' with h'' | h''
        · exact Or.inl h''
        · have hpg := List.mem_of_mem_filter h''
          have hts : r.ts ≤ endMs := by simpa using List.of_mem_filter h''
          obtain ⟨hs, hge⟩ := binPage_mem hpg
          exact Or.inr ⟨hs, hge, hts⟩
      · refine Or.inr ⟨h'.1, ?_, h'.2.2⟩
        have hne : binPage src since 1000 ≠ [] := by
          simpa [List.isEmpty_iff] using hp
        obtain ⟨y, hy, hEq⟩ := lastTsRec_mem hne
        have hys : since ≤ y.ts := (binPage_mem hy).2
        have hstep := h'.2.1
        rw [hEq] at hstep
        omega
    · exact Or.inl h

end Finda

namespace Finda

theorem binanceOhlcvGo_pairwise (src : List BinRec) (endMs : Nat)
    (hsrc : src.Pairwise (fun a b => a.ts < b.ts)) :
    ∀ (fuel since : Nat) (acc : List BinRec),
      acc.Pairwise (fun a b => a.ts < b.ts) → (∀ a ∈ acc, a.ts < since) →
      (binanceOhlcvGo src endMs fuel since acc).Pairwise (fun a b => a.ts < b.ts) := by
  intro fuel
  induction fuel with
  | zero => intro since acc hacc _; simpa [binanceOhlcvGo] using hacc
  | succ fuel ih =>
    intro since acc hacc hbound
    simp only [binanceOhlcvGo]
    split_ifs with hlt hp hshort
    · exact hacc
    · refine List.pairwise_append.mpr ⟨hacc, ?_, ?_⟩
      · exact (binPage_pairwise hsrc since 1000).sublist (List.filter_sublist _)
      · intro a ha b hb
        have hbpage := List.mem_of_mem_filter hb
        exact lt_of_lt_of_le (hbound a ha) (binPage_mem hbpage).2
    · have hne : binPage src since 1000 ≠ [] := by
        simpa [List.isEmpty_iff] using hp
      obtain ⟨y, hy, hEq⟩ := lastTsRec_mem hne
      have hysince : since ≤ y.ts := (binPage_mem hy).2
      refine ih _ _ ?_ ?_
      · refine List.pairwise_append.mpr ⟨hacc, ?_, ?_⟩
        · exact (binPage_pairwise hsrc since 1000).sublist (List.filter_sublist _)
        · intro a ha b hb
          have hbpage := List.mem_of_mem_filter hb
          exact lt_of_lt_of_le (hbound a ha) (binPage_mem hbpage).2
      · intro a ha
        rcases List.mem_append.mp ha with ha' | ha'
        · have h1 := hbound a ha'
          rw [hEq]
          omega
        · have hmax := lastTsRec_max (binPage_pairwise hsrc since 1000)
            (List.mem_of_mem_filter ha')
        
          omega
    · exact hacc

theorem filter_cons_of_sorted {src : List BinRec} {r : BinRec} {since : Nat}
    (hsrc : src.Pairwise (fun a b => a.ts < b.ts)) (hr : r ∈ src) (hts : r.ts = since) :
    ∃ rest, src.filter (fun x => since ≤ x.ts) = r :: rest := by
  induction src with
  | nil => cases hr
  | cons a t ih =>
    rcases List.pairwise_cons.mp hsrc with ⟨ha, ht⟩
    cases hr with
    | head =>
      refine ⟨t.filter (fun x => since ≤ x.ts), ?_⟩
      rw [List.filter_cons_of_pos (by simp [hts])]
    | tail _ hr' =>
      have halt : a.ts < since := hts ▸ ha r hr'
      obtain ⟨rest, hrest⟩ := ih ht hr'
      refine ⟨rest, ?_⟩
      rw [List.filter_cons_of_neg (by simp; omega), hrest]

theorem binanceOhlcvGo_start_mem (src : List BinRec) (endMs : Nat)
    (hsrc : src.Pairwise (fun a b => a.ts < b.ts)) {r : BinRec} (hr : r ∈ src)
    (fuel since : Nat) (acc : List BinRec)
    (hts : r.ts = since) (hlt : since < endMs) (hfuel : 1 ≤ fuel) :
    r ∈ binanceOhlcvGo src endMs fuel since acc := by
  obtain ⟨fuel, rfl⟩ : ∃ f, fuel = f + 1 := by
    cases fuel with
    | zero => omega
    | succ f => exact ⟨f, rfl⟩
  obtain ⟨rest, hrest⟩ := filter_cons_of_sorted hsrc hr hts
  have hpage : ∃ prest, binPage src since 1000 = r :: prest := by
    refine ⟨rest.take 999, ?_⟩
    simp [binPage, hrest, List.take_succ_cons]
  obtain ⟨prest, hpg⟩ := hpage
  have hrpage : r ∈ binPage src since 1000 := by rw [hpg]; exact List.mem_cons_self r prest
  have hrfilter : r ∈ (binPage src since 1000).filter (fun c => c.ts ≤ endMs) :=
    List.mem_filter.mpr ⟨hrpage, by simp; omega⟩
  simp only [binanceOhlcvGo]
  rw [if_pos hlt]
  rw [if_neg (by simp [hpg])]
  split_ifs
  · exact List.mem_append_right _ hrfilter
  · exact binanceOhlcvGo_acc_mem src endMs _ _ _ r (List.mem_append_right _ hrfilter)

theorem binanceOhlcvFetchCore_error_iff (src : List BinRec) (endMs since : Nat)
    (symbol : String) :
    binanceOhlcvFetchCore src endMs since symbol
      = .error (.dataProviderError ("No Binance data for " ++ symbol))
    ↔ binanceOhlcvLoop src endMs since [] = [] := by
  unfold binanceOhlcvFetchCore
  constructor
  · intro h
    by_cases he : (binanceOhlcvLoop src endMs since []).isEmpty
    · exact List.isEmpty_iff.mp he
    · simp [he] at h
  · intro h
    simp [h]

end Finda

namespace Finda

theorem lastTsTrade_mem {l : List BinTrade} (h : l ≠ []) : ∃ y ∈ l, lastTsTrade l = y.ts :=
  ⟨l.getLast h, List.getLast_mem h, by simp [lastTsTrade, List.getLast?_eq_getLast l h]⟩

theorem lastTsTrade_max : ∀ {l : List BinTrade}, l.Pairwise (fun a b => a.ts < b.ts) →
    ∀ {x : BinTrade}, x ∈ l → x.ts ≤ lastTsTrade l := by
  intro l
  induction l with
  | nil => intro _ x hx; cases hx
  | cons a t ih =>
    intro hl x hx
    rcases List.pairwise_cons.mp hl with ⟨ha, ht⟩
    cases hx with
    | head =>
      cases t with
      | nil => simp [lastTsTrade]
      | cons b t' =>
        obtain ⟨y, hy, hEq⟩ := lastTsTrade_mem (l := b :: t') (by simp)
        have hstep : lastTsTrade (a :: b :: t') = lastTsTrade (b :: t') := by
          simp [lastTsTrade, List.getLast?_cons_cons]
        rw [hstep, hEq]
        exact le_of_lt (ha y hy)
    | tail _ hx =>
      cases t with
      | nil => cases hx
      | cons b t' =>
        have hstep : lastTsTrade (a :: b :: t') = lastTsTrade (b :: t') := by
          simp [lastTsTrade, List.getLast?_cons_cons]
        rw [hstep]
        exact ih ht hx

theorem binTradePage_sublist (src : List BinTrade) (since limit : Nat) :
    (binTradePage src since limit).Sublist src :=
  (List.take_sublist _ _).trans (List.filter_sublist _)

theorem binTradePage_mem {src : List BinTrade} {since limit : Nat} {t : BinTrade}
    (h : t ∈ binTradePage src since limit) : t ∈ src ∧ since ≤ t.ts := by
  have h1 := List.mem_of_mem_take h
  exact ⟨(List.mem_filter.mp h1).1, by simpa using (List.mem_filter.mp h1).2⟩

theorem binTradePage_pairwise {src : List BinTrade}
    (hsrc : src.Pairwise (fun a b => a.ts < b.ts)) (since limit : Nat) :
    (binTradePage src since limit).Pairwise (fun a b => a.ts < b.ts) :=
  hsrc.sublist (binTradePage_sublist src since limit)

theorem binanceTickGo_acc_mem (src : List BinTrade) (endMs : Nat) :
    ∀ (fuel since : Nat) (acc : List BinTrade) (t : BinTrade),
      t ∈ acc → t ∈ binanceTickGo src endMs fuel since acc := by
  intro fuel
  induction fuel with
  | zero => intro since acc t h; simpa [binanceTickGo] using h
  | succ fuel ih =>
    intro since acc t h
    simp only [binanceTickGo]
    split_ifs
    · exact h
    · exact List.mem_append_left _ h
    · exact ih _ _ t (List.mem_append_left _ h)
    · exact h

theorem binanceTickGo_mem (src : List BinTrade) (endMs : Nat) :
    ∀ (fuel since : Nat) (acc : List BinTrade) (t : BinTrade),
      t ∈ binanceTickGo src endMs fuel since acc →
      t ∈ acc ∨ (t ∈ src ∧ since ≤ t.ts ∧ t.ts ≤ endMs) := by
  intro fuel
  induction fuel with
  | zero => intro since acc t h; exact Or.inl (by simpa [binanceTickGo] using h)
  | succ fuel ih =>
    intro since acc t h
    simp only [binanceTickGo] at h
    split_ifs at h with hlt hp hshort
    · exact Or.inl h
    · rcases List.mem_append.mp h with h' | h'
      · exact Or.inl h'
      · have hpg := (List.takeWhile_sublist _).subset h'
        have hts : t.ts ≤ endMs := by simpa using List.mem_takeWhile_imp h'
        obtain ⟨hs, hge⟩ := binTradePage_mem hpg
        exact Or.inr ⟨hs, hge, hts⟩
    · rcases ih _ _ t h with h' | h'
      · rcases List.mem_append.mp h' with h'' | h''
        · exact Or.inl h''
        · have hpg := (List.takeWhile_sublist _).subset h''
          have hts : t.ts ≤ endMs := by simpa using List.mem_takeWhile_imp h''
          obtain ⟨hs, hge⟩ := binTradePage_mem hpg
          exact Or.inr ⟨hs, hge, hts⟩
      · refine Or.inr ⟨h'.1, ?_, h'.2.2⟩
        have hne : binTradePage src since 1000 ≠ [] := by
          simpa [List.isEmpty_iff] using hp
        obtain ⟨y, hy, hEq⟩ := lastTsTrade_mem hne
        have hys : since ≤ y.ts := (binTradePage_mem hy).2
        have hstep := h'.2.1
        rw [hEq] at hstep
        omega
    · exact Or.inl h

theorem binanceTickGo_pairwise (src : List BinTrade) (endMs : Nat)
    (hsrc : src.Pairwise (fun a b => a.ts < b.ts)) :
    ∀ (fuel since : Nat) (acc : List BinTrade),
      acc.Pairwise (fun a b => a.ts < b.ts) → (∀ a ∈ acc, a.ts < since) →
      (binanceTickGo src endMs fuel since acc).Pairwise (fun a b => a.ts < b.ts) := by
  intro fuel
  induction fuel with
  | zero => intro since acc hacc _; simpa [binanceTickGo] using hacc
  | succ fuel ih =>
    intro since acc hacc hbound
    simp only [binanceTickGo]
    split_ifs with hlt hp hshort
    · exact hacc
    · refine List.pairwise_append.mpr ⟨hacc, ?_, ?_⟩
      · exact (binTradePage_pairwise hsrc since 1000).sublist (List.takeWhile_sublist _)
      · intro a ha b hb
        have hbpage := (List.takeWhile_sublist _).subset hb
        exact lt_of_lt_of_le (hbound a ha) (binTradePage_mem hbpage).2
    · have hne : binTradePage src since 1000 ≠ [] := by
        simpa [List.isEmpty_iff] using hp
      obtain ⟨y, hy, hEq⟩ := lastTsTrade_mem hne
      have hysince : since ≤ y.ts := (binTradePage_mem hy).2
      refine ih _ _ ?_ ?_
      · refine List.pairwise_append.mpr ⟨hacc, ?_, ?_⟩
        · exact (binTradePage_pairwise hsrc since 1000).sublist (List.takeWhile_sublist _)
        · intro a ha b hb
          have hbpage := (List.takeWhile_sublist _).subset hb
          exact lt_of_lt_of_le (hbound a ha) (binTradePage_mem hbpage).2
      · intro a ha
        rcases List.mem_append.mp ha with ha' | ha'
        · have h1 := hbound a ha'
          rw [hEq]
          omega
        · have hmax := lastTsTrade_max (binTradePage_pairwise hsrc since 1000)
            ((List.takeWhile_sublist _).subset ha')
          omega
    · exact hacc

theorem trade_filter_cons_of_sorted {src : List BinTrade} {r : BinTrade} {since : Nat}
    (hsrc : src.Pairwise (fun a b => a.ts < b.ts)) (hr : r ∈ src) (hts : r.ts = since) :
    ∃ rest, src.filter (fun x => since ≤ x.ts) = r :: rest := by
  induction src with
  | nil => cases hr
  | cons a t ih =>
    rcases List.pairwise_cons.mp hsrc with ⟨ha, ht⟩
    cases hr with
    | head =>
      refine ⟨t.filter (fun x => since ≤ x.ts), ?_⟩
      rw [List.filter_cons_of_pos (by simp [hts])]
    | tail _ hr' =>
      have halt : a.ts < since := hts ▸ ha r hr'
      obtain ⟨rest, hrest⟩ := ih ht hr'
      refine ⟨rest, ?_⟩
      rw [List.filter_cons_of_neg (by simp; omega), hrest]

theorem binanceTickGo_start_mem (src : List BinTrade) (endMs : Nat)
    (hsrc : src.Pairwise (fun a b => a.ts < b.ts)) {r : BinTrade} (hr : r ∈ src)
    (fuel since : Nat) (acc : List BinTrade)
    (hts : r.ts = since) (hlt : since < endMs) (hfuel : 1 ≤ fuel) :
    r ∈ binanceTickGo src endMs fuel since acc := by
  obtain ⟨fuel, rfl⟩ : ∃ f, fuel = f + 1 := by
    cases fuel with
    | zero => omega
    | succ f => exact ⟨f, rfl⟩
  obtain ⟨rest, hrest⟩ := trade_filter_cons_of_sorted hsrc hr hts
  have hpage : binTradePage src since 1000 = r :: rest.take 999 := by
    simp [binTradePage, hrest, List.take_succ_cons]
  have hrkept : r ∈ (binTradePage src since 1000).takeWhile (fun t => t.ts ≤ endMs) := by
    rw [hpage]
    rw [List.takeWhile_cons_of_pos (by simp; omega)]
    exact List.mem_cons_self _ _
  simp only [binanceTickGo]
  rw [if_pos hlt]
  rw [if_neg (by simp [hpage])]
  split_ifs
  · exact List.mem_append_right _ hrkept
  · exact binanceTickGo_acc_mem src endMs _ _ _ r (List.mem_append_right _ hrkept)

theorem binanceTickFetchCore_error_iff (src : List BinTrade) (endMs since : Nat)
    (symbol : String) :
    binanceTickFetchCore src endMs since symbol
      = .error (.dataProviderError ("No Binance tick data for " ++ symbol))
    ↔ binanceTickLoop src endMs since [] = [] := by
  unfold binanceTickFetchCore
  constructor
  · intro h
    by_cases he : (binanceTickLoop src endMs since []).isEmpty
    · exact List.isEmpty_iff.mp he
    · simp [he] at h
  · intro h
    simp [h]

end Finda

namespace Finda

/-- C4: over any (synthetic, sorted) paginated upstream, both Binance
pagination loops — the OHLCV one and the trades one — produce a result
with strictly increasing (hence duplicate-free) timestamps, drawn from the
upstream at or after the start cursor, never beyond `end`; a record
sitting exactly at the start cursor is included (when the range is
nonempty); and the adapter fails with its "no data" provider error exactly
when the aggregate is empty. The cursor mechanics — start at `start`,
advance to one past the last page record, stop on a short page or when the
cursor passes `end` — are the definitions `binanceOhlcvGo`/`binanceTickGo`
being proved about. -/
theorem c4_exchange_pagination (src : List BinRec) (tsrc : List BinTrade)
    (endMs since : Nat) (symbol : String)
    (hsrc : src.Pairwise (fun a b => a.ts < b.ts))
    (htsrc : tsrc.Pairwise (fun a b => a.ts < b.ts)) :
    ((binanceOhlcvLoop src endMs since []).map (fun r => r.ts)).Nodup
    ∧ (binanceOhlcvLoop src endMs since []).Pairwise (fun a b => a.ts < b.ts)
    ∧ (∀ r ∈ binanceOhlcvLoop src endMs since [], r ∈ src ∧ since ≤ r.ts ∧ r.ts ≤ endMs)
    ∧ (∀ r ∈ src, r.ts = since → since < endMs → r ∈ binanceOhlcvLoop src endMs since [])
    ∧ (binanceOhlcvFetchCore src endMs since symbol
        = .error (.dataProviderError ("No Binance data for " ++ symbol))
      ↔ binanceOhlcvLoop src endMs since [] = [])
    ∧ ((binanceTickLoop tsrc endMs since []).map (fun t => t.ts)).Nodup
    ∧ (binanceTickLoop tsrc endMs since []).Pairwise (fun a b => a.ts < b.ts)
    ∧ (∀ t ∈ binanceTickLoop tsrc endMs since [], t ∈ tsrc ∧ since ≤ t.ts ∧ t.ts ≤ endMs)
    ∧ (∀ t ∈ tsrc, t.ts = since → since < endMs → t ∈ binanceTickLoop tsrc endMs since [])
    ∧ (binanceTickFetchCore tsrc endMs since symbol
        = .error (.dataProviderError ("No Binance tick data for " ++ symbol))
      ↔ binanceTickLoop tsrc endMs since [] = []) := by
  have hopw : (binanceOhlcvLoop src endMs since []).Pairwise (fun a b => a.ts < b.ts) :=
    binanceOhlcvGo_pairwise src endMs hsrc _ _ [] List.Pairwise.nil (by simp)
  have htpw : (binanceTickLoop tsrc endMs since []).Pairwise (fun a b => a.ts < b.ts) :=
    binanceTickGo_pairwise tsrc endMs htsrc _ _ [] List.Pairwise.nil (by simp)
  refine ⟨?_, hopw, ?_, ?_, ?_, ?_, htpw, ?_, ?_, ?_⟩
  · exact hopw.map _ (fun {a b} h => Nat.ne_of_lt h)
  · intro r hr
    rcases binanceOhlcvGo_mem src endMs _ _ [] r hr with h | h
    · cases h
    · exact h
  · intro r hr hts hlt
    exact binanceOhlcvGo_start_mem src endMs hsrc hr _ _ [] hts hlt (by omega)
  · exact binanceOhlcvFetchCore_error_iff src endMs since symbol
  · exact htpw.map _ (fun {a b} h => Nat.ne_of_lt h)
  · intro t ht
    rcases binanceTickGo_mem tsrc endMs _ _ [] t ht with h | h
    · cases h
    · exact h
  · intro t ht hts hlt
    exact binanceTickGo_start_mem tsrc endMs htsrc ht _ _ [] hts hlt (by omega)
  · exact binanceTickFetchCore_error_iff tsrc endMs since symbol

/-- Witness for C4 on small sorted sources. -/
theorem c4_exchange_pagination_witness :
    ((binanceOhlcvLoop binSrcA 6 1 []).map (fun r => r.ts)).Nodup
    ∧ (binanceOhlcvLoop binSrcA 6 1 []).Pairwise (fun a b => a.ts < b.ts)
    ∧ (∀ r ∈ binanceOhlcvLoop binSrcA 6 1 [], r ∈ binSrcA ∧ 1 ≤ r.ts ∧ r.ts ≤ 6)
    ∧ (∀ r ∈ binSrcA, r.ts = 1 → 1 < 6 → r ∈ binanceOhlcvLoop binSrcA 6 1 [])
    ∧ (binanceOhlcvFetchCore binSrcA 6 1 "BTCUSDT"
        = .error (.dataProviderError ("No Binance data for " ++ "BTCUSDT"))
      ↔ binanceOhlcvLoop binSrcA 6 1 [] = [])
    ∧ ((binanceTickLoop binTradeSrcA 6 1 []).map (fun t => t.ts)).Nodup
    ∧ (binanceTickLoop binTradeSrcA 6 1 []).Pairwise (fun a b => a.ts < b.ts)
    ∧ (∀ t ∈ binanceTickLoop binTradeSrcA 6 1 [], t ∈ binTradeSrcA ∧ 1 ≤ t.ts ∧ t.ts ≤ 6)
    ∧ (∀ t ∈ binTradeSrcA, t.ts = 1 → 1 < 6 → t ∈ binanceTickLoop binTradeSrcA 6 1 [])
    ∧ (binanceTickFetchCore binTradeSrcA 6 1 "BTCUSDT"
        = .error (.dataProviderError ("No Binance tick data for " ++ "BTCUSDT"))
      ↔ binanceTickLoop binTradeSrcA 6 1 [] = []) :=
  c4_exchange_pagination binSrcA binTradeSrcA 6 1 "BTCUSDT" (by decide) (by decide)

end Finda
